import Mathlib

/-!
# TalentScope — shallow embedding and verification

This file embeds the candidate-analysis pipeline of the TalentScope
repository (files `app.py`, `ai_analyzer.py`, `enhanced_analyzer.py`,
`chatbot_service.py`) in Lean 4 and proves / refutes the claims of the
specification.

Modelling conventions:
* A Python `str` is modelled as a `List Nat` of Unicode code points
  (abbreviated `Str`).  Character classes (`\w`, `\s`, letters) are modelled
  on the ASCII and Latin-1 ranges, which cover every literal appearing in
  the sources.
* Python `float` is modelled as `ℚ` with exact arithmetic; `round(x, n)`
  and the `:.1f` format are modelled as exact round-half-to-even on
  rationals.
* Effectful operations (HTTP calls, PDF libraries, `json.loads`) are
  modelled by explicit outcome parameters (`Except`/`Option` oracles);
  Python exceptions are modelled with `Except`.
* Python dictionaries are association lists in insertion order; `set`
  values are modelled as duplicate-free lists keeping first occurrences
  (CPython's set iteration order is not specified).
-/

/-- A Python string: the list of its Unicode code points. -/
abbrev Str : Type := List Nat

/-- Code points of a Lean string literal, used to transcribe Python string
literals into the embedding. -/
def strToCodes (s : String) : Str :=
  s.data.map Char.toNat

namespace Py

/-- Whitespace, as matched by `\s` and stripped by `str.strip()`
(ASCII whitespace plus NEL and NBSP). -/
def isSpace (c : Nat) : Bool :=
  c = 32 || (9 ≤ c && c ≤ 13) || c = 133 || c = 160

/-- ASCII decimal digit (`\d`, `str.isdigit` restricted to ASCII). -/
def isDigit (c : Nat) : Bool :=
  48 ≤ c && c ≤ 57

/-- Cased letters: ASCII plus Latin-1 letters. -/
def isAlpha (c : Nat) : Bool :=
  (65 ≤ c && c ≤ 90) || (97 ≤ c && c ≤ 122) ||
  (192 ≤ c && c ≤ 214) || (216 ≤ c && c ≤ 246) || (248 ≤ c && c ≤ 255) ||
  c = 170 || c = 181 || c = 186

/-- Word characters (`\w`): letters, digits and underscore. -/
def isWord (c : Nat) : Bool :=
  isAlpha c || isDigit c || c = 95

/-- `str.lower` on one code point (ASCII and Latin-1 ranges). -/
def lowerChar (c : Nat) : Nat :=
  if (65 ≤ c && c ≤ 90) || (192 ≤ c && c ≤ 214) || (216 ≤ c && c ≤ 222) then
    c + 32
  else c

/-- `str.upper` on one code point (ASCII and Latin-1 ranges; `ÿ` is kept). -/
def upperChar (c : Nat) : Nat :=
  if (97 ≤ c && c ≤ 122) || (224 ≤ c && c ≤ 246) || (248 ≤ c && c ≤ 254) then
    c - 32
  else c

/-- `str.lower`. -/
def lower (s : Str) : Str := s.map lowerChar

/-- `str.upper`. -/
def upper (s : Str) : Str := s.map upperChar

/-- `str.title()`: a cased character is uppercased after a non-cased
character and lowercased after a cased one. -/
def titleGo : Bool → Str → Str
  | _, [] => []
  | prevCased, c :: r =>
    if isAlpha c then
      (if prevCased then lowerChar c else upperChar c) :: titleGo true r
    else
      c :: titleGo false r

/-- `str.title()`. -/
def title (s : Str) : Str := titleGo false s

/-- `str.strip()`: remove leading and trailing whitespace. -/
def strip (s : Str) : Str :=
  ((s.dropWhile isSpace).reverse.dropWhile isSpace).reverse

/-- `a in s` for strings: `pat` occurs as a contiguous substring of `s`. -/
def containsSub (s pat : Str) : Bool :=
  s.tails.any (pat.isPrefixOf ·)

/-- Index of the first occurrence of `pat` in `s` (length of the prefix
before it), or `none`. -/
def findSub (s pat : Str) : Option Nat :=
  match s with
  | [] => if pat = [] then some 0 else none
  | _ :: r =>
    if pat.isPrefixOf s then some 0
    else (findSub r pat).map (· + 1)

/-- Case-insensitive prefix test (`re.IGNORECASE` literal matching). -/
def isPrefixOfCI (pat s : Str) : Bool :=
  (lower pat).isPrefixOf (lower s)

/-- Index of the first case-insensitive occurrence of `pat` in `s`. -/
def findSubCI (s pat : Str) : Option Nat :=
  findSub (lower s) (lower pat)

theorem length_dropWhile_le (p : Nat → Bool) (l : Str) :
    (l.dropWhile p).length ≤ l.length := by
  induction l with
  | nil => simp [List.dropWhile]
  | cons c r ih =>
    rw [List.dropWhile_cons]
    split
    · exact Nat.le_succ_of_le ih
    · simp

/-- Worker for `str.replace`, structurally recursive on a fuel bound
(every step consumes at least one character, so any fuel of at least
`s.length` yields the untruncated scan). -/
def replaceAllGo : Nat → Str → Str → Str → Str
  | 0, _, _, _ => []
  | fuel + 1, s, pat, rep =>
    match s with
    | [] => []
    | c :: r =>
      if pat.isPrefixOf (c :: r) ∧ pat ≠ [] then
        rep ++ replaceAllGo fuel ((c :: r).drop pat.length) pat rep
      else
        c :: replaceAllGo fuel r pat rep

/-- `str.replace(pat, rep)` with nonempty `pat`: replace all
non-overlapping occurrences, scanning left to right. -/
def replaceAll (s pat rep : Str) : Str :=
  replaceAllGo s.length s pat rep

/-- `str.split(sep)` for a one-character separator (as in `split('\n')`):
keeps empty fields. -/
def splitOnChar (sep : Nat) (s : Str) : List Str :=
  match s with
  | [] => [[]]
  | c :: r =>
    let rest := splitOnChar sep r
    if c = sep then [] :: rest
    else
      match rest with
      | [] => [[c]]
      | f :: fs => (c :: f) :: fs

/-- Worker for `str.split()`, structurally recursive on a fuel bound. -/
def splitWsGo : Nat → Str → List Str
  | 0, _ => []
  | fuel + 1, s =>
    match s with
    | [] => []
    | c :: r =>
      if isSpace c then splitWsGo fuel r
      else
        (c :: r.takeWhile (fun x => !isSpace x)) ::
          splitWsGo fuel (r.dropWhile (fun x => !isSpace x))

/-- `str.split()` with no argument: split on whitespace runs, dropping
empty fields. -/
def splitWs (s : Str) : List Str :=
  splitWsGo s.length s

/-- `sep.join(parts)`. -/
def joinSep (sep : Str) : List Str → Str
  | [] => []
  | [x] => x
  | x :: y :: r => x ++ sep ++ joinSep sep (y :: r)

/-- Decimal digits of a natural number. -/
def natDigits (n : Nat) : Str :=
  if n < 10 then [48 + n]
  else natDigits (n / 10) ++ [48 + n % 10]
  termination_by n
  decreasing_by
    exact Nat.div_lt_self (by omega) (by omega)

/-- `str(n)` for an integer. -/
def intStr (n : ℤ) : Str :=
  if n < 0 then 45 :: natDigits n.natAbs else natDigits n.natAbs

end Py

namespace PyQ

/-- Round half to even to an integer (Python's `round`, and the rounding
used by `format(x, '.nf')`, modelled on exact rationals). -/
def rnhe (q : ℚ) : ℤ :=
  if q - (⌊q⌋ : ℚ) < 1/2 then ⌊q⌋
  else if 1/2 < q - (⌊q⌋ : ℚ) then ⌊q⌋ + 1
  else if 2 ∣ ⌊q⌋ then ⌊q⌋ else ⌊q⌋ + 1

theorem rnhe_ge (q : ℚ) : q - 1/2 ≤ (rnhe q : ℚ) := by
  unfold rnhe
  have hf : (⌊q⌋ : ℚ) ≤ q := Int.floor_le q
  have hf2 : q - 1 < (⌊q⌋ : ℚ) := Int.sub_one_lt_floor q
  split_ifs with h1 h2 h3
  · linarith
  · push_cast; linarith
  · linarith
  · push_cast; linarith

theorem rnhe_le (q : ℚ) : (rnhe q : ℚ) ≤ q + 1/2 := by
  unfold rnhe
  have hf : (⌊q⌋ : ℚ) ≤ q := Int.floor_le q
  have hf2 : q - 1 < (⌊q⌋ : ℚ) := Int.sub_one_lt_floor q
  split_ifs with h1 h2 h3
  · linarith
  · push_cast; linarith
  · linarith
  · have hr : q - (⌊q⌋ : ℚ) = 1/2 := le_antisymm (not_lt.mp h2) (not_lt.mp h1)
    push_cast
    linarith

/-- `round(q, 1)` on exact rationals. -/
def round1 (q : ℚ) : ℚ := (rnhe (q * 10) : ℚ) / 10

/-- If `a` and `b` are integer multiples of `1/10`, `round1` maps `[a, b]`
into itself. -/
theorem round1_mem (a b q : ℚ) (ha : a * 10 = (⌊a * 10⌋ : ℚ))
    (hb : b * 10 = (⌊b * 10⌋ : ℚ)) (h1 : a ≤ q) (h2 : q ≤ b) :
    a ≤ round1 q ∧ round1 q ≤ b := by
  unfold round1
  have hge := rnhe_ge (q * 10)
  have hle := rnhe_le (q * 10)
  constructor
  · rw [le_div_iff₀ (by norm_num : (0:ℚ) < 10)]
    have hint : ⌊a * 10⌋ ≤ rnhe (q * 10) := by
      by_contra hc
      push_neg at hc
      have hc2 : (rnhe (q * 10) : ℚ) ≤ (⌊a * 10⌋ : ℚ) - 1 := by
        have := Int.le_sub_one_of_lt hc
        exact_mod_cast this
      rw [← ha] at hc2
      nlinarith
    have : (⌊a * 10⌋ : ℚ) ≤ (rnhe (q * 10) : ℚ) := by exact_mod_cast hint
    rw [ha]
    linarith
  · rw [div_le_iff₀ (by norm_num : (0:ℚ) < 10)]
    have hint : rnhe (q * 10) ≤ ⌊b * 10⌋ := by
      by_contra hc
      push_neg at hc
      have hc2 : (⌊b * 10⌋ : ℚ) + 1 ≤ (rnhe (q * 10) : ℚ) := by
        have := Int.add_one_le_of_lt hc
        exact_mod_cast this
      rw [← hb] at hc2
      nlinarith
    have : (rnhe (q * 10) : ℚ) ≤ (⌊b * 10⌋ : ℚ) := by exact_mod_cast hint
    rw [← hb] at this
    linarith

/-- `format(q, '.1f')`. -/
def fmt1 (q : ℚ) : Str :=
  let n : ℤ := rnhe (q * 10)
  if n < 0 then 45 :: (Py.natDigits (n.natAbs / 10) ++ [46] ++ [48 + n.natAbs % 10])
  else Py.natDigits (n.natAbs / 10) ++ [46] ++ [48 + n.natAbs % 10]

/-- `format(q, '.0f')`. -/
def fmt0 (q : ℚ) : Str := Py.intStr (rnhe q)

/-- `int(q)`: truncation toward zero. -/
def pyTrunc (q : ℚ) : ℤ :=
  if 0 ≤ q then ⌊q⌋ else -⌊-q⌋

/-- `str(q)` for a float whose value is an exact multiple of `1/10`
(every float rendered by the sources has been rounded to one decimal);
other values are rendered with six decimals. -/
def reprF (q : ℚ) : Str :=
  if (q * 10).den = 1 then
    let n : ℤ := (q * 10).num
    if n < 0 then 45 :: (Py.natDigits (n.natAbs / 10) ++ [46] ++ [48 + n.natAbs % 10])
    else Py.natDigits (n.natAbs / 10) ++ [46] ++ [48 + n.natAbs % 10]
  else
    let n : ℤ := rnhe (q * 1000000)
    if n < 0 then 45 :: (Py.natDigits (n.natAbs / 1000000) ++ [46] ++ Py.natDigits (n.natAbs % 1000000))
    else Py.natDigits (n.natAbs / 1000000) ++ [46] ++ Py.natDigits (n.natAbs % 1000000)

end PyQ

/-! ## Python values

Association lists model `dict`s (insertion order); `PyVal` is the dynamic
value type used for JSON data and the analysis result dictionaries. -/

inductive PyVal : Type where
  | vNone : PyVal
  | vBool : Bool → PyVal
  | vNum : ℚ → PyVal
  | vStr : Str → PyVal
  | vList : List PyVal → PyVal
  | vDict : List (String × PyVal) → PyVal
deriving Inhabited

namespace PyVal

/-- Python truthiness. -/
def truthy : PyVal → Bool
  | vNone => false
  | vBool b => b
  | vNum q => q ≠ 0
  | vStr s => s ≠ []
  | vList l => !l.isEmpty
  | vDict d => !d.isEmpty

/-- `d.get(k)` on an association list. -/
def aget (d : List (String × PyVal)) (k : String) : Option PyVal :=
  (d.find? (fun e => e.1 = k)).map (·.2)

/-- `d.get(k, default)`. -/
def agetD (d : List (String × PyVal)) (k : String) (dflt : PyVal) : PyVal :=
  (aget d k).getD dflt

/-- `d.get(k)` with Python's `None` for a missing key. -/
def agetN (d : List (String × PyVal)) (k : String) : PyVal :=
  agetD d k vNone

/-- Lookup on a `PyVal` that is expected to be a dict. -/
def dget (v : PyVal) (k : String) : Option PyVal :=
  match v with
  | vDict d => aget d k
  | _ => none

/-- Keys of a dict value (empty for non-dicts). -/
def keys : PyVal → List String
  | vDict d => d.map Prod.fst
  | _ => []

end PyVal

/-! ## `app.py` — resume ingestion helpers

`extract_text_from_pdf` (lines 172–197) and `extract_candidate_info`
(lines 199–243). -/

namespace App

/-- Outcome of one PDF library: either an exception at some point
(`Except.error`), or the list of `page.extract_text()` results (`None`
pages are `none`). -/
abbrev PdfOutcome := Except Str (List (Option Str))

/-- The page-concatenation loop shared by both branches of
`extract_text_from_pdf`: `text += page_text + '\n'` for each page whose
extracted text is truthy. -/
def concatPages (pages : List (Option Str)) : Str :=
  pages.foldl (fun acc p =>
    match p with
    | some t => if t = [] then acc else acc ++ t ++ [10]
    | none => acc) []

/-- `extract_text_from_pdf`: try `pdfplumber`, on any exception try
`PyPDF2`, on a second exception return `''`.  The two library runs are
oracle parameters. -/
def extract_text_from_pdf (plumber pypdf : PdfOutcome) : Str :=
  match plumber with
  | Except.ok pages => Py.strip (concatPages pages)
  | Except.error _ =>
    match pypdf with
    | Except.ok pages => Py.strip (concatPages pages)
    | Except.error _ => []

/-! ### The email regex

`r'\b[A-Za-z0-9._%+-]+@[A-Za-z0-9.-]+\.[A-Z|a-z]{2,}\b'`, including its
backtracking behaviour: the local part and domain runs are greedy, the
domain gives back characters until a literal `.` is found, and the
TLD class (which contains `|` because of the `[A-Z|a-z]` class) shrinks
until the final word boundary holds. -/

/-- `[A-Za-z0-9._%+-]`. -/
def isLocalChar (c : Nat) : Bool :=
  Py.isDigit c || (65 ≤ c && c ≤ 90) || (97 ≤ c && c ≤ 122) ||
  c = 46 || c = 95 || c = 37 || c = 43 || c = 45

/-- `[A-Za-z0-9.-]`. -/
def isDomainChar (c : Nat) : Bool :=
  Py.isDigit c || (65 ≤ c && c ≤ 90) || (97 ≤ c && c ≤ 122) || c = 46 || c = 45

/-- `[A-Z|a-z]` (letters and the literal `|`). -/
def isTldChar (c : Nat) : Bool :=
  (65 ≤ c && c ≤ 90) || (97 ≤ c && c ≤ 122) || c = 124

/-- `\b` between an optional previous character and an optional next
character: exactly one side is a word character. -/
def boundary (prev next : Option Nat) : Bool :=
  (match prev with | some c => Py.isWord c | none => false) ≠
  (match next with | some c => Py.isWord c | none => false)


/-- Backtracking for `[A-Z|a-z]{2,}\b`: `rt` is the reversed greedy TLD
run, `rest` what follows it.  `re` gives characters back from the end of
the run until the trailing `\b` holds (at least 2 must remain); the
returned pair is the kept (reversed) TLD and the remainder. -/
def tldGo : Str → Str → Option (Str × Str)
  | [], _ => none
  | lastc :: rt', rest =>
    if rt'.length + 1 < 2 then none
    else if boundary (some lastc) rest.head? then some ((lastc :: rt').reverse, rest)
    else tldGo rt' (lastc :: rest)

/-- Greedy-then-backtrack match of `[A-Z|a-z]{2,}\b` where `t` is the
greedy class run and `rest` follows it. -/
def tldBacktrack (t rest : Str) : Option (Str × Str) :=
  tldGo t.reverse rest

/-- Backtracking for `[A-Za-z0-9.-]+\.` inside the email pattern: `run` is
the greedy domain-class run (`rest` follows it); the `+` keeps `k ≥ 1`
characters, tried from longest, and `\.` must match `run[k]`.  The TLD then
starts at `run[k+1:]` and may extend past the run (`|` is not a domain
character). -/
def domainBacktrack (run rest : Str) : Nat → Option (Str × Str)
  | 0 => none
  | k + 1 =>
    if run.getD (k + 1) 0 = 46 then
      match tldBacktrack ((run.drop (k + 2) ++ rest).takeWhile isTldChar)
          ((run.drop (k + 2) ++ rest).dropWhile isTldChar) with
      | some (tld, rem) => some (run.take (k + 1) ++ [46] ++ tld, rem)
      | none => domainBacktrack run rest k
    else domainBacktrack run rest k

/-- Attempt the email regex at the current position (`s` is the suffix
starting there, `prev` the character before it).  Returns the match and
the remaining suffix. -/
def emailMatchAt (s : Str) (prev : Option Nat) : Option (Str × Str) :=
  match s with
  | [] => none
  | c :: _ =>
    if isLocalChar c && boundary prev (some c) then
      let lp := s.takeWhile isLocalChar
      let s1 := s.dropWhile isLocalChar
      match s1 with
      | 64 :: s2 =>
        let run := s2.takeWhile isDomainChar
        let rest := s2.dropWhile isDomainChar
        if run.length < 2 then none
        else
          match domainBacktrack run rest (run.length - 1) with
          | some (dom, rem) => some (lp ++ [64] ++ dom, rem)
          | none => none
      | _ => none
    else none

theorem tldGo_len (rt rest tld rem : Str)
    (h : tldGo rt rest = some (tld, rem)) :
    rem.length ≤ rt.length + rest.length := by
  induction rt generalizing rest with
  | nil => simp [tldGo] at h
  | cons lastc rt' ih =>
    rw [tldGo] at h
    split at h
    · simp at h
    · split at h
      · simp only [Option.some.injEq, Prod.mk.injEq] at h
        obtain ⟨h1, h2⟩ := h
        subst h2
        simp only [List.length_cons]
        omega
      · have := ih (lastc :: rest) h
        simp only [List.length_cons] at this ⊢
        omega

theorem domainBacktrack_len (k : Nat) (run rest dom rem : Str)
    (h : domainBacktrack run rest k = some (dom, rem)) :
    rem.length ≤ run.length + rest.length := by
  induction k with
  | zero => simp [domainBacktrack] at h
  | succ k ih =>
    rw [domainBacktrack] at h
    split at h
    · rename_i hdot
      split at h
      · rename_i tld rem' htb
        simp only [Option.some.injEq, Prod.mk.injEq] at h
        obtain ⟨h1, h2⟩ := h
        subst h2
        unfold tldBacktrack at htb
        have h3 := tldGo_len _ _ _ _ htb
        have h4 : ((run.drop (k + 2) ++ rest).takeWhile isTldChar).reverse.length +
            ((run.drop (k + 2) ++ rest).dropWhile isTldChar).length =
            (run.drop (k + 2) ++ rest).length := by
          rw [List.length_reverse, ← List.length_append,
            List.takeWhile_append_dropWhile]
        have h5 : (run.drop (k + 2) ++ rest).length ≤ run.length + rest.length := by
          rw [List.length_append, List.length_drop]
          omega
        omega
      · exact ih h
    · exact ih h

theorem emailMatchAt_rem_lt (s : Str) (prev : Option Nat) (m rem : Str)
    (h : emailMatchAt s prev = some (m, rem)) : rem.length < s.length := by
  unfold emailMatchAt at h
  match s, h with
  | c :: r, h =>
    simp only at h
    split at h
    case isFalse => exact absurd h (by simp)
    case isTrue hcl =>
      split at h
      case h_2 => exact absurd h (by simp)
      case h_1 s2 heq =>
        split at h
        case isTrue => exact absurd h (by simp)
        case isFalse hrun =>
          split at h
          case h_2 => exact absurd h (by simp)
          case h_1 dom rem' hdb =>
            obtain ⟨h1, h2⟩ := Prod.mk.injEq .. ▸ (Option.some.injEq .. ▸ h)
            subst h2
            have h3 := domainBacktrack_len ((s2.takeWhile isDomainChar).length - 1)
              (s2.takeWhile isDomainChar) (s2.dropWhile isDomainChar)
              dom rem' hdb
            have h4 : (s2.takeWhile isDomainChar).length +
                (s2.dropWhile isDomainChar).length = s2.length := by
              rw [← List.length_append, List.takeWhile_append_dropWhile]
            have h5 : (c :: r).length =
                ((c :: r).takeWhile isLocalChar).length +
                ((c :: r).dropWhile isLocalChar).length := by
              rw [← List.length_append, List.takeWhile_append_dropWhile]
            have h6 : ((c :: r).dropWhile isLocalChar).length = s2.length + 1 := by
              rw [heq]; simp
            omega

/-- Worker for the email `findall`, structurally recursive on a fuel
bound: every successful match consumes at least one character
(`emailMatchAt_rem_lt`), so any fuel of at least `s.length` yields the
full scan. -/
def findEmailsGo : Nat → Str → Option Nat → List Str
  | 0, _, _ => []
  | fuel + 1, s, prev =>
    match s with
    | [] => []
    | c :: r =>
      match emailMatchAt (c :: r) prev with
      | some (m, rem) => m :: findEmailsGo fuel rem (some (m.getLastD 0))
      | none => findEmailsGo fuel r (some c)

/-- `re.findall` for the email pattern: scan left to right; when no match
starts at the current position, advance one character. -/
def findEmails (s : Str) (prev : Option Nat := none) : List Str :=
  findEmailsGo s.length s prev

/-! ### The phone regexes

`r'\(?\d{2}\)?\s*9?\d{4}[-\s]?\d{4}'`, `r'\+55\s*\(?\d{2}\)?\s*9?\d{4}[-\s]?\d{4}'`
and `r'\d{2}\s*9\d{8}'`.  All quantifiers here are deterministic after
greedy matching except `9?`, which backtracks when the with-`9` branch
fails. -/

/-- Match exactly `n` digits (`\d{n}`). -/
def takeDigits : Nat → Str → Option (Str × Str)
  | 0, s => some ([], s)
  | _ + 1, [] => none
  | n + 1, c :: r =>
    if Py.isDigit c then
      match takeDigits n r with
      | some (d, rest) => some (c :: d, rest)
      | none => none
    else none

/-- `\d{4}[-\s]?\d{4}`. -/
def phoneTail (s : Str) : Option (Str × Str) :=
  match takeDigits 4 s with
  | none => none
  | some (d1, s1) =>
    match s1 with
    | c :: r =>
      if c = 45 || Py.isSpace c then
        match takeDigits 4 r with
        | some (d2, s2) => some (d1 ++ [c] ++ d2, s2)
        | none => none
      else
        match takeDigits 4 s1 with
        | some (d2, s2) => some (d1 ++ d2, s2)
        | none => none
    | [] => none

/-- `\(?\d{2}\)?\s*9?\d{4}[-\s]?\d{4}` (the body shared by the first two
phone patterns). -/
def phoneCommon (s : Str) : Option (Str × Str) :=
  let (p1, s1) : Str × Str :=
    match s with
    | 40 :: r => ([40], r)
    | _ => ([], s)
  match takeDigits 2 s1 with
  | none => none
  | some (dd, s2) =>
    let (p2, s3) : Str × Str :=
      match s2 with
      | 41 :: r => ([41], r)
      | _ => ([], s2)
    let sp := s3.takeWhile Py.isSpace
    let s4 := s3.dropWhile Py.isSpace
    let pre := p1 ++ dd ++ p2 ++ sp
    match s4 with
    | 57 :: r =>
      -- greedy `9?`: try taking the 9 first, backtrack on failure
      match phoneTail r with
      | some (t, rest) => some (pre ++ [57] ++ t, rest)
      | none =>
        match phoneTail s4 with
        | some (t, rest) => some (pre ++ t, rest)
        | none => none
    | _ =>
      match phoneTail s4 with
      | some (t, rest) => some (pre ++ t, rest)
      | none => none

/-- First phone pattern. -/
def phone1At (s : Str) : Option (Str × Str) := phoneCommon s

/-- Second phone pattern: `\+55\s*` then the common body. -/
def phone2At (s : Str) : Option (Str × Str) :=
  match s with
  | 43 :: 53 :: 53 :: r =>
    let sp := r.takeWhile Py.isSpace
    let r2 := r.dropWhile Py.isSpace
    match phoneCommon r2 with
    | some (m, rest) => some ([43, 53, 53] ++ sp ++ m, rest)
    | none => none
  | _ => none

/-- Third phone pattern: `\d{2}\s*9\d{8}`. -/
def phone3At (s : Str) : Option (Str × Str) :=
  match takeDigits 2 s with
  | none => none
  | some (dd, s1) =>
    let sp := s1.takeWhile Py.isSpace
    let s2 := s1.dropWhile Py.isSpace
    match s2 with
    | 57 :: r =>
      match takeDigits 8 r with
      | some (d8, rest) => some (dd ++ sp ++ [57] ++ d8, rest)
      | none => none
    | _ => none

/-- First match of a pattern in `s` (`re.findall(...)[0]` when nonempty):
try every position left to right. -/
def findFirstM (matcher : Str → Option (Str × Str)) : Str → Option Str
  | [] => none
  | c :: r =>
    match matcher (c :: r) with
    | some (m, _) => some m
    | none => findFirstM matcher r

/-- `os.path.splitext(filename)[0]` for a separator-free filename: cut at
the last dot unless every character before it is a dot. -/
def splitextRoot (f : Str) : Str :=
  match (f.reverse.findIdx? (· = 46)) with
  | none => f
  | some ridx =>
    let dotIndex := f.length - 1 - ridx
    if (f.take dotIndex).any (· ≠ 46) then f.take dotIndex else f

/-- The candidate-name heuristic of `extract_candidate_info`: a stripped
line among the first ten with length in `(5, 50)`, no digit, containing a
space and at most 4 words. -/
def goodNameLine (l : Str) : Bool :=
  5 < l.length && l.length < 50 && !(l.any Py.isDigit) && l.contains 32 &&
  (Py.splitWs l).length ≤ 4

/-- Digit-only normalization and Brazilian prefixing of a raw phone match:
`re.sub(r'[^\d]', '', ...)` then the length-10/11 fixups. -/
def normalizePhone (m : Str) : Str :=
  let phone := m.filter Py.isDigit
  if phone.length = 11 && phone.getD 2 0 = 57 then [53, 53] ++ phone
  else if phone.length = 10 then [53, 53] ++ phone
  else phone

/-- `extract_candidate_info(resume_text, filename)` (`app.py` 199–243):
returns the `{'name', 'email', 'phone'}` record. -/
def extract_candidate_info (resume_text filename : Str) : List (String × Str) :=
  let fileName :=
    Py.title (Py.replaceAll (Py.replaceAll (splitextRoot filename) [95] [32]) [45] [32])
  let first_lines := (Py.splitOnChar 10 resume_text).take 10
  let name :=
    match (first_lines.map Py.strip).find? goodNameLine with
    | some l => Py.title l
    | none => fileName
  let email :=
    match findEmails resume_text with
    | e :: _ => Py.lower e
    | [] =>
      Py.replaceAll (Py.replaceAll (Py.lower name) [32] [46]) [46, 46] [46] ++
        strToCodes "@temporario.pendente"
  let phone :=
    match findFirstM phone1At resume_text with
    | some m => normalizePhone m
    | none =>
      match findFirstM phone2At resume_text with
      | some m => normalizePhone m
      | none =>
        match findFirstM phone3At resume_text with
        | some m => normalizePhone m
        | none => []
  [("name", name), ("email", email), ("phone", phone)]

end App

/-! ## `chatbot_service.py` — Tess chatbot

`call_tess` (lines 362–423) and `_clean_propaganda` (lines 445–464). -/

namespace Chatbot

/-- One `re.sub` pass for a pattern of shape `LIT.*?\n` with
`re.IGNORECASE | re.DOTALL`: find the leftmost occurrence of the literal,
extend lazily to the first newline, remove, continue after it.  When the
literal occurs but no newline follows, no occurrence can match. -/
def subLitNlGo (L : Str) : Nat → Str → Str
  | 0, s => s
  | fuel + 1, s =>
    match Py.findSubCI s L with
    | none => s
    | some i =>
      match (s.drop (i + L.length)).dropWhile (· ≠ 10) with
      | 10 :: tail => s.take i ++ subLitNlGo L fuel tail
      | _ => s

def subLitNl (L : Str) (s : Str) : Str :=
  subLitNlGo L s.length s

/-- One `re.sub` pass for a pattern of shape `LIT1.*?LIT2.*?\n`
(`🚀.*?construir um time.*?\n` and `Descubra.*?potencial.*?\n`). -/
def subLitLitNlGo (L1 L2 : Str) : Nat → Str → Str
  | 0, s => s
  | fuel + 1, s =>
    match Py.findSubCI s L1 with
    | none => s
    | some i =>
      match Py.findSubCI (s.drop (i + L1.length)) L2 with
      | none => s
      | some j =>
        match ((s.drop (i + L1.length)).drop (j + L2.length)).dropWhile (· ≠ 10) with
        | 10 :: tail => s.take i ++ subLitLitNlGo L1 L2 fuel tail
        | _ => s

def subLitLitNl (L1 L2 : Str) (s : Str) : Str :=
  subLitLitNlGo L1 L2 s.length s

/-- `re.sub(r'#\w+\s*', '', s)`: remove each `#` followed by a maximal
nonempty word-character run and trailing whitespace. -/
def subHashtagGo : Nat → Str → Str
  | 0, s => s
  | fuel + 1, s =>
    match s with
    | [] => []
    | c :: r =>
      if c = 35 && (match r.head? with | some d => Py.isWord d | none => false) then
        subHashtagGo fuel ((r.dropWhile Py.isWord).dropWhile Py.isSpace)
      else c :: subHashtagGo fuel r

def subHashtag (s : Str) : Str :=
  subHashtagGo s.length s

/-- Number of newline characters in a string. -/
def countNl (s : Str) : Nat := (s.filter (· = 10)).length

/-- The whitespace characters of a run that follow its last newline. -/
def afterLastNl (run : Str) : Str :=
  (run.reverse.takeWhile (· ≠ 10)).reverse

/-- `re.sub(r'\n\s*\n\s*\n+', '\n\n', s)`.  A match starts at the first
newline of a whitespace run containing at least three newlines and extends
greedily to the run's last newline, so the run collapses to `\n\n` plus
its trailing non-newline whitespace. -/
def collapseBlankGo : Nat → Str → Str
  | 0, s => s
  | fuel + 1, s =>
    match s with
    | [] => []
    | c :: r =>
      -- `10` is whitespace, so the run starting at a newline is the
      -- newline followed by the whitespace run of the tail
      if c = 10 then
        if 3 ≤ countNl (10 :: r.takeWhile Py.isSpace) then
          10 :: 10 :: afterLastNl (10 :: r.takeWhile Py.isSpace) ++
            collapseBlankGo fuel (r.dropWhile Py.isSpace)
        else
          (10 :: r.takeWhile Py.isSpace) ++ collapseBlankGo fuel (r.dropWhile Py.isSpace)
      else c :: collapseBlankGo fuel r

def collapseBlank (s : Str) : Str :=
  collapseBlankGo s.length s

/-- `_clean_propaganda`: the eight boilerplate substitutions in source
order, then blank-line collapsing, then `strip()`. -/
def clean_propaganda (text : Str) : Str :=
  let s1 := subLitLitNl [128640] (strToCodes "construir um time") text
  let s2 := subLitNl (strToCodes "Vamos juntos") s1
  let s3 := subLitNl (strToCodes "Se você conhece alguém") s2
  let s4 := subHashtag s3
  let s5 := subLitNl (strToCodes "Na TalentScope") s4
  let s6 := subLitLitNl (strToCodes "Descubra") (strToCodes "potencial") s5
  let s7 := subLitNl (strToCodes "Entre em contato") s6
  let s8 := subLitNl (strToCodes "revolucionando") s7
  Py.strip (collapseBlank s8)

/-- Outcome of the HTTP call inside `call_tess`. -/
inductive CallOutcome : Type where
  | notConfigured : CallOutcome
  | timeout : CallOutcome
  | excRaised : Str → CallOutcome
  | http : Nat → Str → CallOutcome
    -- status code and the `_extract_tess_output` of the body

/-- `call_tess`, with the network interaction as an oracle.  On the
success path (HTTP 200, nonempty extracted output) the response text is
post-processed by `_clean_propaganda`. -/
def call_tess : CallOutcome → Str
  | CallOutcome.notConfigured => strToCodes "❌ API não configurada"
  | CallOutcome.timeout => strToCodes "⏱️ Timeout. Tente novamente."
  | CallOutcome.excRaised m => strToCodes "❌ Erro ao processar: " ++ m
  | CallOutcome.http status out =>
    if status ≠ 200 then
      strToCodes "❌ Erro HTTP " ++ Py.intStr status ++
        strToCodes ": A API retornou um erro."
    else if out = [] then strToCodes "⚠️ Resposta vazia da Tess"
    else clean_propaganda out

/-- A hashtag token (`#` followed by a word character) occurs in `s`:
`re.search(r'#\w+', s)` succeeds. -/
def hasHashtag : Str → Bool
  | [] => false
  | [_] => false
  | c :: d :: r => (c = 35 && Py.isWord d) || hasHashtag (d :: r)

/-- A match of `\n\s*\n\s*\n+` exists in `s`: some newline starts a
whitespace run containing at least three newlines. -/
def hasTriple : Str → Bool
  | [] => false
  | c :: r =>
    (c = 10 && 3 ≤ countNl ((c :: r).takeWhile Py.isSpace)) || hasTriple r

end Chatbot

/-! ## `ai_analyzer.py` — Tess analysis pipeline -/

namespace Ai

/-- Numeric value of a digit string. -/
def digitsVal (ds : Str) : Nat := ds.foldl (fun a c => a * 10 + (c - 48)) 0

/-- `float(s)` for a string: optional surrounding whitespace and sign,
then `digits`, `digits.`, `digits.digits` or `.digits` (exponents,
`inf` and `nan` are outside the model). -/
def parseFloat (s : Str) : Option ℚ :=
  let t := ((s.dropWhile Py.isSpace).reverse.dropWhile Py.isSpace).reverse
  let signed : ℚ × Str :=
    match t with
    | 43 :: r => (1, r)
    | 45 :: r => (-1, r)
    | _ => (1, t)
  let sign := signed.1
  let u := signed.2
  let intp := u.takeWhile Py.isDigit
  let rest := u.dropWhile Py.isDigit
  if intp ≠ [] then
    match rest with
    | [] => some (sign * digitsVal intp)
    | 46 :: fr =>
      if fr = [] then some (sign * digitsVal intp)
      else if fr.all Py.isDigit then
        some (sign * (digitsVal intp + digitsVal fr / (10 : ℚ) ^ fr.length))
      else none
    | _ => none
  else
    match u with
    | 46 :: fr =>
      if fr ≠ [] && fr.all Py.isDigit then
        some (sign * (digitsVal fr / (10 : ℚ) ^ fr.length))
      else none
    | _ => none

/-- `float(v)` on a dynamic value: numbers and booleans convert, strings
are parsed, everything else raises (`none`). -/
def pyFloat : PyVal → Option ℚ
  | PyVal.vNum q => some q
  | PyVal.vBool true => some 1
  | PyVal.vBool false => some 0
  | PyVal.vStr s => parseFloat s
  | _ => none

/-- `a or b` on Python values. -/
def pyOr (a b : PyVal) : PyVal := if a.truthy then a else b

/-- Match `\d+(?:\.\d+)?` at the start of `s`; returns the value and the
remainder. -/
def matchNumAt (s : Str) : Option (ℚ × Str) :=
  let ds := s.takeWhile Py.isDigit
  if ds = [] then none
  else
    let s1 := s.dropWhile Py.isDigit
    match s1 with
    | 46 :: r =>
      let fs := r.takeWhile Py.isDigit
      if fs = [] then some ((digitsVal ds : ℚ), s1)
      else some ((digitsVal ds + digitsVal fs / (10 : ℚ) ^ fs.length),
        r.dropWhile Py.isDigit)
    | _ => some ((digitsVal ds : ℚ), s1)

/-- Match `KW[:\s]+(\d+(?:\.\d+)?)` at the start of `s` (the score
patterns; the text is already lowercased). -/
def kwNumAt (kw : Str) (s : Str) : Option ℚ :=
  if kw.isPrefixOf s then
    let s1 := s.drop kw.length
    let run := s1.takeWhile (fun c => c = 58 || Py.isSpace c)
    if run = [] then none
    else (matchNumAt (s1.dropWhile (fun c => c = 58 || Py.isSpace c))).map Prod.fst
  else none

/-- Match `(\d+(?:\.\d+)?)\s*/\s*10` at the start of `s`. -/
def slash10At (s : Str) : Option ℚ :=
  match matchNumAt s with
  | none => none
  | some (v, s1) =>
    match (s1.dropWhile Py.isSpace) with
    | 47 :: r =>
      match r.dropWhile Py.isSpace with
      | 49 :: 48 :: _ => some v
      | _ => none
    | _ => none

/-- `re.search` for a positional matcher: first position where it
succeeds. -/
def searchM {α : Type} (m : Str → Option α) : Str → Option α
  | [] => m []
  | c :: r =>
    match m (c :: r) with
    | some v => some v
    | none => searchM m r

/-- `TextExtractor.extract_score` (`ai_analyzer.py` 222–242): lowercase,
`,`→`.`, try the four score patterns in order, clamp to `[0, 10]`,
default `6.5`. -/
def extract_score (text : Str) : ℚ :=
  let normalized := Py.replaceAll (Py.lower text) [44] [46]
  match searchM (kwNumAt (strToCodes "score")) normalized with
  | some v => min 10 (max 0 v)
  | none =>
    match searchM (kwNumAt (strToCodes "pontuação")) normalized with
    | some v => min 10 (max 0 v)
    | none =>
      match searchM (kwNumAt (strToCodes "nota")) normalized with
      | some v => min 10 (max 0 v)
      | none =>
        match searchM slash10At normalized with
        | some v => min 10 (max 0 v)
        | none => 13/2

/-- Match `\s+` then a literal at the start, returning the remainder. -/
def wsThenLit (lit : Str) (s : Str) : Option Str :=
  let ws := s.takeWhile Py.isSpace
  if ws = [] then none
  else
    let s1 := s.dropWhile Py.isSpace
    if lit.isPrefixOf s1 then some (s1.drop lit.length) else none

/-- Match `\s*(?:\+)?\s*ano` then an optional `s` at the start of `s`
(shared tail of the two years patterns), returning the remainder. -/
def anosTail (s : Str) : Option Str :=
  let s1 := s.dropWhile Py.isSpace
  let s2 := match s1 with
    | 43 :: r => r.dropWhile Py.isSpace
    | _ => s1
  if (strToCodes "ano").isPrefixOf s2 then
    let s3 := s2.drop 3
    match s3 with
    | 115 :: r => some r
    | _ => some s3
  else none

/-- First years pattern `(\d+)\s*(?:\+)?\s*anos?\s+de\s+experiência`
at the start of the (lowercased) text. -/
def years1At (s : Str) : Option ℚ :=
  let ds := s.takeWhile Py.isDigit
  if ds = [] then none
  else
    match anosTail (s.dropWhile Py.isDigit) with
    | none => none
    | some s3 =>
      match wsThenLit (strToCodes "de") s3 with
      | none => none
      | some s4 =>
        match wsThenLit (strToCodes "experiência") s4 with
        | none => none
        | some _ => some (digitsVal ds : ℚ)

/-- Second years pattern `experiência[:\s]+(\d+)\s*(?:\+)?\s*anos?`. -/
def years2At (s : Str) : Option ℚ :=
  if (strToCodes "experiência").isPrefixOf s then
    let s1 := s.drop (strToCodes "experiência").length
    let run := s1.takeWhile (fun c => c = 58 || Py.isSpace c)
    if run = [] then none
    else
      let s2 := s1.dropWhile (fun c => c = 58 || Py.isSpace c)
      let ds := s2.takeWhile Py.isDigit
      if ds = [] then none
      else
        match anosTail (s2.dropWhile Py.isDigit) with
        | none => none
        | some _ => some (digitsVal ds : ℚ)
  else none

/-- `TextExtractor.extract_years` (285–296): first pattern that matches
wins; default `2.0`. -/
def extract_years (text : Str) : ℚ :=
  let lowered := Py.lower text
  match searchM years1At lowered with
  | some v => v
  | none =>
    match searchM years2At lowered with
    | some v => v
    | none => 2

/-- Both-sides word boundary for a literal occurrence: the character
before (resp. after) must make a `\b` with the literal's first (resp.
last) character. -/
def countOccWB (kw : Str) : Str → Option Nat → Nat
  | [], _ => 0
  | c :: r, prev =>
    if kw.isPrefixOf (c :: r) &&
        App.boundary prev (some c) &&
        App.boundary ((c :: r).getD (kw.length - 1) 0 |> some)
          ((c :: r).drop kw.length).head? then
      1 + countOccWB kw ((c :: r).drop kw.length)
        (some ((c :: r).getD (kw.length - 1) 0))
    else countOccWB kw r (some c)
  termination_by s _ => s.length
  decreasing_by
  · rename_i hkw
    simp only [Bool.and_eq_true] at hkw
    have : kw ≠ [] := by
      intro he
      rw [he] at hkw
      revert hkw
      simp [App.boundary]
    have : 0 < kw.length := List.length_pos.mpr this
    simp only [List.length_drop, List.length_cons]
    omega
  · simp

/-- `TextExtractor.count_projects` (298–306): `\b`-delimited occurrences
of the four project keywords in the lowercased text, capped at 20. -/
def count_projects (text : Str) : Nat :=
  let lowered := Py.lower text
  min
    (countOccWB (strToCodes "projeto") lowered none +
     countOccWB (strToCodes "project") lowered none +
     countOccWB (strToCodes "desenvolveu") lowered none +
     countOccWB (strToCodes "implementou") lowered none)
    20

end Ai

namespace Ai

/-- Prefix of `s` up to (excluding) the first position where `stop` holds
(the lazy `(.*?)(?=...)` group of the skills patterns). -/
def takeUntilStop (stop : Str → Bool) : Str → Str
  | [] => []
  | c :: r => if stop (c :: r) then [] else c :: takeUntilStop stop r

/-- Lookahead `(?=\n\n|\d+\.|\Z)` of the first skills pattern. -/
def stop1 (s : Str) : Bool :=
  match s with
  | [] => true
  | 10 :: 10 :: _ => true
  | _ =>
    let ds := s.takeWhile Py.isDigit
    ds ≠ [] && (s.dropWhile Py.isDigit).head? = some 46

/-- Lookahead `(?=\n\n|POSSÍVEIS LACUNAS|PONTOS FORTES|Recomendações|$)`
of the second skills pattern (`$` also matches before a final newline). -/
def stop2 (s : Str) : Bool :=
  match s with
  | [] => true
  | [10] => true
  | 10 :: 10 :: _ => true
  | _ =>
    Py.isPrefixOfCI (strToCodes "POSSÍVEIS LACUNAS") s ||
    Py.isPrefixOfCI (strToCodes "PONTOS FORTES") s ||
    Py.isPrefixOfCI (strToCodes "Recomendações") s

/-- Optional one-character literal (case-insensitive). -/
def optCharCI (c : Nat) (s : Str) : Str :=
  match s with
  | d :: r => if Py.lowerChar d = Py.lowerChar c then r else s
  | [] => s

/-- Header of `skills?\s+identificadas?[:\s]+`, returning the lazy
content group on success. -/
def hdr1At (s : Str) : Option Str :=
  if Py.isPrefixOfCI (strToCodes "skill") s then
    let s1 := optCharCI 115 (s.drop 5)
    let ws := s1.takeWhile Py.isSpace
    if ws = [] then none
    else
      let s2 := s1.dropWhile Py.isSpace
      if Py.isPrefixOfCI (strToCodes "identificada") s2 then
        let s3 := optCharCI 115 (s2.drop 12)
        let run := s3.takeWhile (fun c => c = 58 || Py.isSpace c)
        if run = [] then none
        else some (takeUntilStop stop1 (s3.dropWhile (fun c => c = 58 || Py.isSpace c)))
      else none
  else none

/-- Header of `ANÁLISE DE HARD SKILLS[:\s]+`. -/
def hdr2At (s : Str) : Option Str :=
  if Py.isPrefixOfCI (strToCodes "ANÁLISE DE HARD SKILLS") s then
    let s1 := s.drop (strToCodes "ANÁLISE DE HARD SKILLS").length
    let run := s1.takeWhile (fun c => c = 58 || Py.isSpace c)
    if run = [] then none
    else some (takeUntilStop stop2 (s1.dropWhile (fun c => c = 58 || Py.isSpace c)))
  else none

/-- `re.findall(r'[-•*]\s*([^\n]+)', content)`: bullet-list items.  When
the text ends inside the whitespace after a marker, `\s*` backtracks and
the group captures the last non-newline whitespace character. -/
def bulletItems : Str → List Str
  | [] => []
  | c :: r =>
    if c = 45 || c = 8226 || c = 42 then
      if (r.dropWhile Py.isSpace).isEmpty then
        match (r.takeWhile Py.isSpace).reverse.dropWhile (· = 10) with
        | x :: _ => [[x]]
        | [] => []
      else
        ((r.dropWhile Py.isSpace).takeWhile (· ≠ 10)) ::
          bulletItems ((r.dropWhile Py.isSpace).dropWhile (· ≠ 10))
    else bulletItems r
  termination_by s => s.length
  decreasing_by
  · have h1 : ((r.dropWhile Py.isSpace).dropWhile (· ≠ 10)).length ≤
        (r.dropWhile Py.isSpace).length := Py.length_dropWhile_le _ _
    have h2 : (r.dropWhile Py.isSpace).length ≤ r.length := Py.length_dropWhile_le _ _
    simp only [List.length_cons]
    omega
  · simp

/-- `TextExtractor.extract_skills` (244–282). -/
def extract_skills (text : Str) : List Str :=
  let fromP1 : List Str :=
    match searchM hdr1At text with
    | some content =>
      let its := bulletItems content
      if !its.isEmpty then its.map Py.strip
      else ((Py.splitOnChar 44 content).map Py.strip).filter (fun i => 2 < i.length)
    | none => []
  let skills : List Str :=
    if fromP1.isEmpty then
      match searchM hdr2At text with
      | some content =>
        (((Py.splitOnChar 10 content).map Py.strip).filter (· ≠ [])).filterMap
          (fun line =>
            if line.contains 58 then
              let nome := Py.strip (line.takeWhile (· ≠ 58))
              if 1 < nome.length && nome.length < 50 then some nome else none
            else none)
      | none => []
    else fromP1
  (skills.filter (fun s => s ≠ [] && s.length < 50)).take 20

/-- `ResponseParser._fallback_parse` (198–216): the analysis dict built
from free text. -/
def fallback_parse (text : Str) : List (String × PyVal) :=
  [("score", PyVal.vNum (extract_score text)),
   ("hard_skills", PyVal.vList ((extract_skills text).map (fun s =>
      PyVal.vDict [("nome", PyVal.vStr s),
                   ("nivel", PyVal.vStr (strToCodes "Intermediário"))]))),
   ("soft_skills", PyVal.vList [PyVal.vStr (strToCodes "Comunicação"),
      PyVal.vStr (strToCodes "Trabalho em equipe")]),
   ("experiencia", PyVal.vDict
      [("anos", PyVal.vNum (extract_years text)),
       ("cargos", PyVal.vList [PyVal.vStr (strToCodes "Verificar manualmente")]),
       ("lacunas", PyVal.vList [])]),
   ("pontos_fortes", PyVal.vList [PyVal.vStr (strToCodes "Experiência relevante"),
      PyVal.vStr (strToCodes "Perfil potencialmente aderente")]),
   ("pontos_atencao", PyVal.vList [PyVal.vStr (strToCodes "Validar escopo de atuação"),
      PyVal.vStr (strToCodes "Verificar profundidade técnica")]),
   ("observacoes_riscos", PyVal.vList [])]

/-- `ResponseParser.parse_json_response` (179–196): either the
`json.loads` of the brace-delimited JSON found in the output (an oracle,
always a dict when it succeeds), or the free-text fallback parse. -/
def parse_json_response (jsonRes : Option (List (String × PyVal))) (output : Str) :
    List (String × PyVal) :=
  jsonRes.getD (fallback_parse output)

end Ai

namespace Ai

open PyVal

/-- `repr(v)` (string rendering used inside containers; ints and floats
are conflated as `ℚ`, rendered by `PyQ.reprF`). -/
def pyRepr : PyVal → Str
  | vNone => strToCodes "None"
  | vBool true => strToCodes "True"
  | vBool false => strToCodes "False"
  | vNum q => PyQ.reprF q
  | vStr s => 39 :: (s ++ [39])
  | vList l => 91 :: (Py.joinSep (strToCodes ", ") (l.attach.map (fun x => pyRepr x.1)) ++ [93])
  | vDict d => 123 :: (Py.joinSep (strToCodes ", ")
      (d.attach.map (fun x => (39 :: (strToCodes x.1.1 ++ [39])) ++
        strToCodes ": " ++ pyRepr x.1.2)) ++ [125])
  decreasing_by
  · have := x.2
    have h1 : sizeOf x.1 < sizeOf l := List.sizeOf_lt_of_mem this
    cases x; simp at h1 ⊢; omega
  · have := x.2
    have h1 : sizeOf x.1 < sizeOf d := List.sizeOf_lt_of_mem this
    obtain ⟨⟨k, v⟩, hmem⟩ := x
    simp at h1 ⊢
    omega

/-- `str(v)`. -/
def pyStr (v : PyVal) : Str :=
  match v with
  | vStr s => s
  | _ => pyRepr v

/-- Iteration over a Python value: lists yield elements, strings yield
one-character strings, dicts yield their keys; other values raise. -/
def pyIterE : PyVal → Except Str (List PyVal)
  | vList l => Except.ok l
  | vStr s => Except.ok (s.map (fun c => vStr [c]))
  | vDict d => Except.ok (d.map (fun p => vStr (strToCodes p.1)))
  | _ => Except.error (strToCodes "TypeError: not iterable")

/-- `v[:n]`: slicing, defined for lists and strings. -/
def pySliceE (v : PyVal) (n : Nat) : Except Str PyVal :=
  match v with
  | vList l => Except.ok (vList (l.take n))
  | vStr s => Except.ok (vStr (s.take n))
  | _ => Except.error (strToCodes "TypeError: not subscriptable")

/-- `v[0]`: lists yield their head, strings their first character;
empty sequences and other values raise. -/
def pyIndex0E : PyVal → Except Str PyVal
  | vList (x :: _) => Except.ok x
  | vList [] => Except.error (strToCodes "IndexError")
  | vStr (c :: _) => Except.ok (vStr [c])
  | vStr [] => Except.error (strToCodes "IndexError")
  | _ => Except.error (strToCodes "TypeError: not subscriptable")

/-- `TessAnalyzer._extract_score` (505–512): `score`/`pontuacao`/`nota`
with truthiness chaining, `float` conversion, `6.5` on failure. -/
def tessExtractScore (analysis : List (String × PyVal)) : ℚ :=
  let v := pyOr (agetN analysis "score")
    (pyOr (agetN analysis "pontuacao") (agetD analysis "nota" (vNum (13/2))))
  match pyFloat v with
  | some q => q
  | none => 13/2

/-- `TessAnalyzer._process_skills` (514–528): names from dict skills
(with `nome`/`name`/`skill` chaining) and plain string skills. -/
def processSkills (hard_skills : PyVal) : List PyVal :=
  match hard_skills with
  | vList l =>
    l.foldl (fun acc skill =>
      match skill with
      | vDict d =>
        let nome := pyOr (agetN d "nome") (pyOr (agetN d "name") (agetD d "skill" (vStr [])))
        if nome.truthy then acc ++ [nome] else acc
      | vStr s => acc ++ [vStr s]
      | _ => acc) []
  | _ => []

/-- `TessAnalyzer._process_experience` (530–540): `float(years)` may
raise for non-numeric values. -/
def processExperienceE (experiencia : PyVal) : Except Str (ℚ × PyVal) :=
  match experiencia with
  | vDict d =>
    let years := pyOr (agetN d "anos") (pyOr (agetD d "years" (vNum 0)) (vNum 0))
    let positions := pyOr (agetN d "cargos") (pyOr (agetD d "positions" (vList [])) (vList []))
    match pyFloat years with
    | some q => Except.ok (q, positions)
    | none => Except.error (strToCodes "ValueError: float")
  | _ => Except.ok (0, vList [])

/-- `TessAnalyzer._determine_seniority` (542–552), returning the enum
value string. -/
def determineSeniority (years score : ℚ) : Str :=
  if years ≥ 7 ∨ score ≥ 17/2 then strToCodes "Sênior"
  else if years ≥ 4 ∨ score ≥ 7 then strToCodes "Pleno"
  else if years ≥ 2 then strToCodes "Junior"
  else strToCodes "Trainee/Estagiário"

/-- `TessAnalyzer._format_list` (554–559): `""` for a falsy argument,
else newline-joined `"{prefix} {item}"` lines; iterating a non-iterable
raises. -/
def formatListE (items : PyVal) (pre : Str) : Except Str Str :=
  if !items.truthy then Except.ok []
  else
    match pyIterE items with
    | Except.ok l => Except.ok (Py.joinSep [10] (l.map (fun it => pre ++ [32] ++ pyStr it)))
    | Except.error e => Except.error e

/-- `TessAnalyzer._get_recommendation` (561–571), returning the enum
value string. -/
def getRecommendation (score : ℚ) : Str :=
  if score ≥ 8 then strToCodes "Altamente Recomendado"
  else if score ≥ 13/2 then strToCodes "Recomendado"
  else if score ≥ 5 then strToCodes "Análise Manual Recomendada"
  else strToCodes "Não Recomendado"

/-- `TessAnalyzer._generate_summary` (573–581). -/
def generateSummary (score : ℚ) (seniority : Str) (years : ℚ) (skillsCount : Nat) : Str :=
  strToCodes "Profissional " ++ seniority ++ strToCodes " com " ++ PyQ.reprF years ++
  strToCodes " anos de experiência. Score de " ++ PyQ.fmt1 score ++
  strToCodes "/10, com " ++ Py.natDigits skillsCount ++
  strToCodes " competências técnicas. Análise via Tess Agent 67."

/-- `', '.join(positions[:3]) if positions else 'Cargos não detalhados'`:
joining requires every element to be a string. -/
def joinPositionsE (positions : PyVal) : Except Str Str :=
  if !positions.truthy then Except.ok (strToCodes "Cargos não detalhados")
  else
    match positions with
    | vList l =>
      if (l.take 3).all (fun v => match v with | vStr _ => true | _ => false) then
        Except.ok (Py.joinSep (strToCodes ", ") ((l.take 3).map pyStr))
      else Except.error (strToCodes "TypeError: join")
    | vStr s => Except.ok (Py.joinSep (strToCodes ", ") ((s.take 3).map (fun c => [c])))
    | _ => Except.error (strToCodes "TypeError: not subscriptable")

/-- The fallible evaluations inside `_structure_response`, in source
order. -/
structure TessSteps : Type where
  years : ℚ
  positions : PyVal
  strengthsText : Str
  weaknessesText : Str
  risksText : Str
  posJoin : Str
  mentorship : PyVal
  recReason : PyVal
  resumeText : Str

/-- `candidate_data.get('resume_text', '')` must be a string for
`count_projects` (and the prompt slicing) to work. -/
def expectStrE (v : PyVal) : Except Str Str :=
  match v with
  | vStr s => Except.ok s
  | _ => Except.error (strToCodes "TypeError: str expected")

/-- The fallible part of `TessAnalyzer._structure_response` (430–503). -/
def tessSteps (analysis : List (String × PyVal)) (candidate_data : PyVal) :
    Except Str TessSteps := do
  let soft_skills := agetD analysis "soft_skills" (vList [])
  let experiencia := agetD analysis "experiencia" (vDict [])
  let pontos_fortes := agetD analysis "pontos_fortes" (vList [])
  let pontos_atencao := agetD analysis "pontos_atencao" (vList [])
  let observacoes := agetD analysis "observacoes_riscos" (vList [])
  let (years, positions) ← processExperienceE experiencia
  let st ← formatListE pontos_fortes (strToCodes "✅")
  let wk ← formatListE pontos_atencao (strToCodes "⚠️")
  let rk ← formatListE observacoes (strToCodes "🔴")
  let pj ← joinPositionsE positions
  let ms ← if soft_skills.truthy then pySliceE soft_skills 3
           else pure (vList [vStr (strToCodes "Validar em entrevista")])
  let rr ← if pontos_fortes.truthy then pyIndex0E pontos_fortes
           else pure (vStr (strToCodes "Perfil aderente"))
  let rt ← expectStrE (PyVal.agetD (match candidate_data with
    | vDict d => d | _ => []) "resume_text" (vStr []))
  pure { years := years, positions := positions,
         strengthsText := if st = [] then strToCodes "✅ Perfil adequado" else st,
         weaknessesText := if wk = [] then strToCodes "⚠️ Nenhum ponto crítico" else wk,
         risksText := if rk = [] then strToCodes "✅ Sem riscos críticos" else rk,
         posJoin := pj, mentorship := ms, recReason := rr, resumeText := rt }

/-- `agetD` on a `PyVal` expected to be a dict (`.get` with default). -/
def vgetD (v : PyVal) (k : String) (dflt : PyVal) : PyVal :=
  match v with
  | vDict d => agetD d k dflt
  | _ => dflt

/-- The result dictionary literal of `_structure_response` (463–503). -/
def assembleTess (analysis : List (String × PyVal)) (score : ℚ)
    (candidate_data raw_data : PyVal) (output now : Str) (s : TessSteps) : PyVal :=
  let skillNames := processSkills (agetD analysis "hard_skills" (vList []))
  let soft_skills := agetD analysis "soft_skills" (vList [])
  let seniority := determineSeniority s.years score
  vDict
  [("contact_info", vDict
      [("email", vgetD candidate_data "email" (vStr (strToCodes "Não informado"))),
       ("phone", vgetD candidate_data "phone" (vStr (strToCodes "Não informado"))),
       ("linkedin", vgetD candidate_data "linkedin_url" (vStr (strToCodes "Não informado")))]),
   ("extracted_skills", vList (skillNames.take 20)),
   ("matched_skills", vList (skillNames.take 15)),
   ("missing_skills", vList []),
   ("seniority_detected", vStr seniority),
   ("experience_years", vNum s.years),
   ("experience_summary", vStr (seniority ++ strToCodes " • " ++ PyQ.reprF s.years ++
      strToCodes " anos • " ++ s.posJoin)),
   ("leadership_responsibilities", vList [vStr (strToCodes "Avaliar em entrevista")]),
   ("complexity_indicators", vList [vStr (strToCodes "Score: " ++ PyQ.fmt1 score ++
      strToCodes "/10")]),
   ("mentorship_indicators", s.mentorship),
   ("strengths", vStr s.strengthsText),
   ("weaknesses", vStr s.weaknessesText),
   ("professional_summary", vStr (generateSummary score seniority s.years skillNames.length)),
   ("hard_skills_score", vNum (max 1 (min 10 score))),
   ("soft_skills_score", vNum (max 1 (min 10 (score - 1/2)))),
   ("experience_score", vNum (max 1 (min 10 (s.years * 6/5)))),
   ("overall_score", vNum score),
   ("recommendation", vStr (getRecommendation score)),
   ("recommendation_reason", s.recReason),
   ("potential_risks", vStr s.risksText),
   ("analysis_source", vStr (strToCodes "🤖 Tess AI (Pareto) - Agent 67")),
   ("analysis_timestamp", vStr now),
   ("provider", vStr (strToCodes "pareto_tess_json")),
   ("confidence_level", vStr (strToCodes "Alta - Análise estruturada")),
   ("tess_raw_output", vStr (output.take 1000)),
   ("tess_full_response", raw_data),
   ("tess_json_analysis", vDict analysis),
   ("total_skills_found", vNum skillNames.length),
   ("skill_match_percentage", vNum (min 100 (PyQ.pyTrunc (score * 10) : ℚ))),
   ("projects_mentioned", vNum (count_projects s.resumeText : ℚ)),
   ("education_level", vStr (strToCodes "Avaliar manualmente")),
   ("soft_skills_identified", soft_skills),
   ("hard_skills_detailed", agetD analysis "hard_skills" (vList [])),
   ("job_positions", s.positions),
   ("analysis_note", vStr (strToCodes "✅ Análise Tess | Score: " ++ PyQ.fmt1 score ++
      strToCodes "/10 | " ++ Py.natDigits skillNames.length ++ strToCodes " skills"))]

/-- `TessAnalyzer._structure_response` (430–503): parse, extract, and
assemble; Python exceptions inside it surface as `Except.error`. -/
def structure_response (jsonRes : Option (List (String × PyVal))) (output : Str)
    (candidate_data raw_data : PyVal) (now : Str) : Except Str PyVal :=
  let analysis := parse_json_response jsonRes output
  let score := tessExtractScore analysis
  (tessSteps analysis candidate_data).map
    (assembleTess analysis score candidate_data raw_data output now)

/-- `AIAnalyzer._emergency_fallback` (657–689). -/
def emergency_fallback (candidate_data _job_requirements : PyVal) (error now : Str) : PyVal :=
  vDict
  [("contact_info", vDict
      [("email", vgetD candidate_data "email" (vStr (strToCodes "N/A"))),
       ("phone", vgetD candidate_data "phone" (vStr (strToCodes "N/A"))),
       ("linkedin", vgetD candidate_data "linkedin_url" (vStr (strToCodes "N/A")))]),
   ("extracted_skills", vList []),
   ("matched_skills", vList []),
   ("missing_skills", vList []),
   ("seniority_detected", vStr (strToCodes "Indeterminado")),
   ("experience_years", vNum 0),
   ("experience_summary", vStr (strToCodes "Erro na análise")),
   ("strengths", vStr (strToCodes "❌ Erro: " ++ error)),
   ("weaknesses", vStr (strToCodes "Análise não concluída")),
   ("professional_summary", vStr (strToCodes "Sistema indisponível")),
   ("hard_skills_score", vNum 0),
   ("soft_skills_score", vNum 0),
   ("experience_score", vNum 0),
   ("overall_score", vNum 0),
   ("recommendation", vStr (strToCodes "Erro de Sistema")),
   ("recommendation_reason", vStr error),
   ("potential_risks", vStr (strToCodes "Análise manual obrigatória")),
   ("analysis_source", vStr (strToCodes "❌ Erro de Sistema")),
   ("analysis_timestamp", vStr now),
   ("provider", vStr (strToCodes "error")),
   ("confidence_level", vStr (strToCodes "Nenhuma")),
   ("error", vStr error)]

/-- `AIAnalyzer.analyze_candidate` (630–655).  `tess` is
`some outcome` when `self.tess_analyzer` exists (Tess configured) and
carries the outcome of `TessAnalyzer.analyze`; `enhanced` carries the
outcome of `EnhancedLocalAnalyzer.analyze`.  Any exception from a
provider selects the next one; the emergency payload is final. -/
def analyze_candidate (tess : Option (Except Str PyVal)) (enhanced : Except Str PyVal)
    (candidate_data job_requirements : PyVal) (now : Str) : PyVal :=
  match tess with
  | some (Except.ok r) => r
  | some (Except.error _) =>
    match enhanced with
    | Except.ok r => r
    | Except.error e => emergency_fallback candidate_data job_requirements e now
  | none =>
    match enhanced with
    | Except.ok r => r
    | Except.error e => emergency_fallback candidate_data job_requirements e now

end Ai

/-! ## `enhanced_analyzer.py` — local heuristic analyzer -/

namespace Enh

open PyVal

/-- The categorized technology dictionary (`self.tech_stack`). -/
def techStack : List (String × List Str) :=
  [("Linguagens de Programação",
    ["python", "java", "javascript", "typescript", "c#", "c++", "php",
     "ruby", "go", "rust", "swift", "kotlin", "scala", "r", "matlab",
     "perl", "dart", "elixir", "haskell", "lua", "bash", "shell"].map strToCodes),
   ("Frameworks Web",
    ["react", "angular", "vue", "svelte", "django", "flask", "fastapi",
     "spring", "laravel", "rails", "express", "nest", "next", "nuxt",
     "gatsby", "remix", "solid", "qwik", "astro"].map strToCodes),
   ("Bancos de Dados",
    ["mysql", "postgresql", "mongodb", "oracle", "sql server", "redis",
     "cassandra", "dynamodb", "elasticsearch", "mariadb", "sqlite",
     "neo4j", "couchdb", "influxdb", "clickhouse", "sql"].map strToCodes),
   ("Cloud & DevOps",
    ["aws", "azure", "gcp", "google cloud", "docker", "kubernetes",
     "jenkins", "gitlab", "github actions", "terraform", "ansible",
     "circleci", "travis", "heroku", "vercel", "netlify", "digitalocean"].map strToCodes),
   ("Ferramentas & Metodologias",
    ["git", "jira", "scrum", "agile", "kanban", "rest", "graphql",
     "microservices", "api", "tdd", "ci/cd", "devops", "solid",
     "clean code", "design patterns"].map strToCodes),
   ("Data Science & IA",
    ["machine learning", "deep learning", "tensorflow", "pytorch",
     "scikit-learn", "pandas", "numpy", "jupyter", "data analysis",
     "power bi", "tableau", "keras", "spark", "hadoop", "airflow"].map strToCodes),
   ("Business Intelligence",
    ["power bi", "tableau", "qlik", "looker", "metabase", "excel avançado",
     "dax", "powerquery", "sap", "salesforce", "microsoft excel"].map strToCodes),
   ("Mobile",
    ["react native", "flutter", "ionic", "xamarin", "android",
     "ios", "swift", "kotlin", "objective-c"].map strToCodes)]

/-- `self.action_verbs`. -/
def actionVerbs : List Str :=
  ["desenvolveu", "implementou", "criou", "liderou", "gerenciou",
   "coordenou", "projetou", "arquitetou", "otimizou", "melhorou",
   "automatizou", "integrou", "migrou", "refatorou", "escalou",
   "deployed", "built", "created", "led", "managed", "designed",
   "maintained", "tested", "debugged", "configured", "desenvolvido",
   "realizado", "executado", "implantado"].map strToCodes

/-- `self.education_levels` (insertion order matters for ties). -/
def educationLevels : List (Str × Nat) :=
  [(strToCodes "ensino médio", 1), (strToCodes "técnico", 2),
   (strToCodes "tecnólogo", 3), (strToCodes "graduação", 4),
   (strToCodes "bacharelado", 4), (strToCodes "licenciatura", 4),
   (strToCodes "pós-graduação", 5), (strToCodes "especialização", 5),
   (strToCodes "mba", 5), (strToCodes "mestrado", 6),
   (strToCodes "doutorado", 7), (strToCodes "phd", 7)]

/-- `re.search(r'\b' + re.escape(tech) + r'\b', text, re.IGNORECASE)`
succeeds: a word-bounded, case-insensitive occurrence exists. -/
def containsWB (needle hay : Str) : Bool :=
  Ai.countOccWB (Py.lower needle) (Py.lower hay) none ≠ 0

/-- Deduplication keeping first occurrences (the model of
`list(set(...))`, whose iteration order CPython leaves unspecified). -/
def dedupFirst (l : List Str) : List Str :=
  l.foldl (fun acc x => if x ∈ acc then acc else acc ++ [x]) []

/-- Result of `_extract_all_technologies`. -/
structure TechInfo : Type where
  by_category : List (String × List Str)
  all_skills : List Str

/-- `EnhancedCVAnalyzer._extract_all_technologies` (212–232). -/
def extract_all_technologies (text : Str) : TechInfo :=
  let found := techStack.map (fun cat =>
    (cat.1, (cat.2.filter (fun t => containsWB t text)).map Py.title))
  { by_category := found,
    all_skills := dedupFirst (found.foldl (fun acc c => acc ++ c.2) []) }

/-- Result of `_calculate_tech_match`. -/
structure TechMatch : Type where
  matched : List Str
  missing : List Str
  percentage : ℚ
  score : ℚ

/-- `EnhancedCVAnalyzer._calculate_tech_match` (234–279). -/
def calculate_tech_match (cv_tech job_tech : TechInfo) : TechMatch :=
  let cv_skills := dedupFirst (cv_tech.all_skills.map Py.lower)
  let job_skills := dedupFirst (job_tech.all_skills.map Py.lower)
  if job_skills.isEmpty then
    let ps : ℚ × ℚ :=
      if 10 ≤ cv_skills.length then (75, 15/2)
      else if 5 ≤ cv_skills.length then (60, 6)
      else (40, 9/2)
    { matched := cv_skills.take 10, missing := [],
      percentage := ps.1, score := ps.2 }
  else
    let matched := cv_skills.filter (· ∈ job_skills)
    let missing := job_skills.filter (· ∉ cv_skills)
    let ps : ℚ × ℚ :=
      if matched.length = 0 then (0, 2)
      else
        let p : ℚ := (matched.length : ℚ) / (job_skills.length : ℚ) * 100
        let bonus : ℚ := min (3/2) ((cv_skills.filter (· ∉ job_skills)).length * (3/20))
        (p, min 10 (p / 10 + bonus))
    { matched := matched.map Py.title, missing := missing.map Py.title,
      percentage := PyQ.round1 ps.1, score := PyQ.round1 ps.2 }

/-- Result of `_analyze_experience`. -/
structure ExpData : Type where
  years : ℚ
  action_verbs_count : Nat
  has_explicit_years : Bool

/-- Second experience pattern `experiência\s+de\s+(\d+)\s*(?:\+)?\s*anos?`. -/
def expP2At (s : Str) : Option ℚ :=
  if (strToCodes "experiência").isPrefixOf s then
    match Ai.wsThenLit (strToCodes "de") (s.drop (strToCodes "experiência").length) with
    | none => none
    | some s1 =>
      let ws := s1.takeWhile Py.isSpace
      if ws = [] then none
      else
        let s2 := s1.dropWhile Py.isSpace
        let ds := s2.takeWhile Py.isDigit
        if ds = [] then none
        else
          match Ai.anosTail (s2.dropWhile Py.isDigit) with
          | none => none
          | some _ => some (Ai.digitsVal ds : ℚ)
  else none

/-- Third experience pattern
`(\d+)\s*(?:\+)?\s*years?\s+(?:of\s+)?experience`. -/
def expP3At (s : Str) : Option ℚ :=
  let ds := s.takeWhile Py.isDigit
  if ds = [] then none
  else
    let s1 := (s.dropWhile Py.isDigit).dropWhile Py.isSpace
    let s2 := match s1 with
      | 43 :: r => r.dropWhile Py.isSpace
      | _ => s1
    if (strToCodes "year").isPrefixOf s2 then
      let s3 := Ai.optCharCI 115 (s2.drop 4)
      let ws := s3.takeWhile Py.isSpace
      if ws = [] then none
      else
        let s4 := s3.dropWhile Py.isSpace
        let withOf : Option Str :=
          if (strToCodes "of").isPrefixOf s4 then
            let s5 := s4.drop 2
            if (s5.takeWhile Py.isSpace) = [] then none
            else some (s5.dropWhile Py.isSpace)
          else none
        match withOf with
        | some s6 =>
          if (strToCodes "experience").isPrefixOf s6 then some (Ai.digitsVal ds : ℚ)
          else if (strToCodes "experience").isPrefixOf s4 then some (Ai.digitsVal ds : ℚ)
          else none
        | none =>
          if (strToCodes "experience").isPrefixOf s4 then some (Ai.digitsVal ds : ℚ)
          else none
    else none

/-- The end-of-period alternation
`(\d{4}|\bpresente\b|\batual\b|present|atual)`, tried in source order;
`prev` is the character just before it.  Returns the group text and the
remainder. -/
def periodEndAt (s : Str) (prev : Nat) : Option (Str × Str) :=
  match App.takeDigits 4 s with
  | some (es, rest) => some (es, rest)
  | none =>
    if App.boundary (some prev) (some 112) &&
        (strToCodes "presente").isPrefixOf s &&
        App.boundary (some 101) (s.drop 8).head? then
      some (strToCodes "presente", s.drop 8)
    else if App.boundary (some prev) (some 97) &&
        (strToCodes "atual").isPrefixOf s &&
        App.boundary (some 108) (s.drop 5).head? then
      some (strToCodes "atual", s.drop 5)
    else if (strToCodes "present").isPrefixOf s then
      some (strToCodes "present", s.drop 7)
    else if (strToCodes "atual").isPrefixOf s then
      some (strToCodes "atual", s.drop 5)
    else none

/-- One work period
`(\d{4})\s*[-–até]\s*(\d{4}|\bpresente\b|\batual\b|present|atual)` at the
current position.  Returns `(start year, end text)` and the remainder. -/
def periodAt (s : Str) : Option ((Nat × Str) × Str) :=
  match App.takeDigits 4 s with
  | none => none
  | some (ds, s1) =>
    match s1.dropWhile Py.isSpace with
    | sep :: s3 =>
      if sep = 45 || sep = 8211 || sep = 97 || sep = 116 || sep = 233 then
        match periodEndAt (s3.dropWhile Py.isSpace)
            (if (s3.takeWhile Py.isSpace) = [] then sep
             else (s3.takeWhile Py.isSpace).getLastD 0) with
        | some (es, rest) => some ((Ai.digitsVal ds, es), rest)
        | none => none
      else none
    | [] => none

/-- `re.findall` of the work-period pattern. -/
def periodsScan : Str → List (Nat × Str)
  | [] => []
  | c :: r =>
    match h : periodAt (c :: r) with
    | some (p, rest) => p :: periodsScan rest
    | none => periodsScan r
  termination_by s => s.length
  decreasing_by
  · -- the match consumed at least the four start digits
    have h4 : ∀ n t ds rest, App.takeDigits n t = some (ds, rest) →
        rest.length + n = t.length := by
      intro n
      induction n with
      | zero =>
        intro t ds rest ht
        simp only [App.takeDigits, Option.some.injEq, Prod.mk.injEq] at ht
        obtain ⟨h1, h2⟩ := ht
        subst h2
        omega
      | succ n ih =>
        intro t ds rest ht
        cases t with
        | nil => simp [App.takeDigits] at ht
        | cons x xs =>
          rw [App.takeDigits] at ht
          split at ht
          · split at ht
            · rename_i d' rest' hrec
              simp only [Option.some.injEq, Prod.mk.injEq] at ht
              have := ih xs d' rest' hrec
              obtain ⟨h1, h2⟩ := ht
              subst h2
              simp only [List.length_cons]
              omega
            · exact absurd ht (by simp)
          · exact absurd ht (by simp)
    unfold periodAt at h
    split at h
    · exact absurd h (by simp)
    · rename_i ds s1 hds
      split at h
      · rename_i sep s3 hdw
        split at h
        · split at h
          · rename_i es rest' hpe
            simp only [Option.some.injEq, Prod.mk.injEq] at h
            obtain ⟨h1, h2⟩ := h
            subst h2
            -- rest' is a suffix-drop of s4, itself from s3, from s1
            have hA : rest'.length ≤ (s3.dropWhile Py.isSpace).length := by
              unfold periodEndAt at hpe
              split at hpe
              · rename_i es2 rest2 htd
                simp only [Option.some.injEq, Prod.mk.injEq] at hpe
                obtain ⟨hp1, hp2⟩ := hpe
                subst hp2
                have := h4 4 (s3.dropWhile Py.isSpace) es2 rest2 htd
                omega
              · split_ifs at hpe <;>
                  (simp only [Option.some.injEq, Prod.mk.injEq] at hpe
                   obtain ⟨hp1, hp2⟩ := hpe
                   subst hp2
                   simp only [List.length_drop]
                   omega)
            have hB : (s3.dropWhile Py.isSpace).length ≤ s3.length :=
              Py.length_dropWhile_le _ _
            have hC : s3.length + 1 = (s1.dropWhile Py.isSpace).length := by
              rw [hdw]; simp
            have hD : (s1.dropWhile Py.isSpace).length ≤ s1.length :=
              Py.length_dropWhile_le _ _
            have hE := h4 4 _ ds s1 hds
            simp only [List.length_cons] at hE ⊢
            omega
          · exact absurd h (by simp)
        · exact absurd h (by simp)
      · exact absurd h (by simp)
  · simp

end Enh

namespace Enh

/-- `EnhancedCVAnalyzer._analyze_experience` (281–335).  `currentYear` is
`datetime.now().year`. -/
def analyze_experience (text : Str) (currentYear : Nat) : ExpData :=
  let text_lower := Py.lower text
  -- explicit-years patterns, each contributing its first match
  let fromPatterns : ℚ :=
    let y1 := (Ai.searchM Ai.years1At text_lower).getD 0
    let y2 := (Ai.searchM expP2At text_lower).getD 0
    let y3 := (Ai.searchM expP3At text_lower).getD 0
    max 0 (max y1 (max y2 y3))
  -- work periods `YYYY - YYYY`
  let periods := periodsScan text_lower
  let total : ℤ := periods.foldl (fun acc p =>
    let endYear : ℤ :=
      if Py.containsSub p.2 (strToCodes "present") ||
         Py.containsSub p.2 (strToCodes "atual") ||
         Py.containsSub p.2 (strToCodes "presente") then (currentYear : ℤ)
      else (Ai.digitsVal p.2 : ℤ)
    let period := max 0 (endYear - (p.1 : ℤ))
    if period ≤ 50 then acc + period else acc) 0
  let years0 : ℚ := max fromPatterns (total : ℚ)
  let action_count := (actionVerbs.filter (fun v => Py.containsSub text_lower v)).length
  let years : ℚ :=
    if years0 = 0 ∧ 5 ≤ action_count then 2
    else if years0 = 0 then 1
    else years0
  { years := years, action_verbs_count := action_count,
    has_explicit_years := years > 0 }

/-- Result of `_detect_seniority`. -/
structure SenInfo : Type where
  level : Str
  multiplier : ℚ
  confidence : Str

/-- The seniority keyword lists, in the order scanned by
`_detect_seniority` (`Expert`, `Sênior`, `Pleno`, `Junior`). -/
def seniorityScan : List (Str × ℚ × List Str) :=
  [(strToCodes "Expert", 5/4,
    ["arquiteto", "architect", "tech lead", "staff", "principal", "head",
     "diretor", "gerente"].map strToCodes),
   (strToCodes "Sênior", 23/20,
    ["sênior", "senior", "sr", "especialista", "specialist", "lead",
     "principal", "sênior"].map strToCodes),
   (strToCodes "Pleno", 1,
    ["pleno", "analista", "desenvolvedor", "developer", "engineer",
     "programador"].map strToCodes),
   (strToCodes "Junior", 17/20,
    ["júnior", "junior", "jr", "estagiário", "trainee", "assistente",
     "intern", "iniciante"].map strToCodes)]

/-- `EnhancedCVAnalyzer._detect_seniority` (337–374). -/
def detect_seniority (text : Str) (years : ℚ) : SenInfo :=
  let hit := seniorityScan.find? (fun lv => lv.2.2.any (Py.containsSub text ·))
  let detected : Str × ℚ :=
    match hit with
    | some lv => (lv.1, lv.2.1)
    | none => (strToCodes "Pleno", 1)
  let adjusted : Str × ℚ :=
    if years ≥ 8 then
      if detected.1 = strToCodes "Junior" ∨ detected.1 = strToCodes "Pleno" then
        (strToCodes "Sênior", 23/20)
      else detected
    else if years ≥ 5 then
      if detected.1 = strToCodes "Junior" then (strToCodes "Pleno", 1) else detected
    else if years < 2 then
      if detected.1 = strToCodes "Sênior" ∨ detected.1 = strToCodes "Expert" then
        (strToCodes "Junior", 17/20)
      else detected
    else detected
  { level := adjusted.1, multiplier := adjusted.2,
    confidence := if hit.isSome then strToCodes "Alta" else strToCodes "Média" }

/-- Result of `_analyze_projects`. -/
structure ProjData : Type where
  count : Nat
  complexity_indicators : List Str

/-- `EnhancedCVAnalyzer._analyze_projects` (376–421). -/
def analyze_projects (text : Str) : ProjData :=
  let text_lower := Py.lower text
  let keywords := ["projeto", "project", "desenvolveu", "implementou", "criou",
    "built", "created", "developed", "implemented", "launched",
    "desenvolvido", "implantado", "executado"].map strToCodes
  let count := min
    (keywords.foldl (fun acc k => acc + Ai.countOccWB k text_lower none) 0) 15
  let ind1 : List Str :=
    if Py.containsSub text_lower (strToCodes "arquitetura") ||
       Py.containsSub text_lower (strToCodes "architecture") then
      [strToCodes "Experiência em arquitetura de software"] else []
  let ind2 : List Str :=
    if Py.containsSub text_lower (strToCodes "microserviços") ||
       Py.containsSub text_lower (strToCodes "microservices") then
      [strToCodes "Trabalho com microserviços"] else []
  let ind3 : List Str :=
    if ["escalabilidade", "performance", "otimização", "optimization"].any
        (fun w => Py.containsSub text_lower (strToCodes w)) then
      [strToCodes "Foco em performance e escalabilidade"] else []
  let ind4 : List Str :=
    if ["migração", "refatoração", "modernização", "migration"].any
        (fun w => Py.containsSub text_lower (strToCodes w)) then
      [strToCodes "Experiência em modernização de sistemas"] else []
  let ind5 : List Str :=
    if 8 ≤ count then
      [Py.natDigits count ++ strToCodes "+ projetos/implementações no histórico"]
    else if 3 ≤ count then
      [Py.natDigits count ++ strToCodes " projetos/implementações identificados"]
    else [strToCodes "Poucos projetos detalhados no CV"]
  { count := count,
    complexity_indicators := ind1 ++ ind2 ++ ind3 ++ ind4 ++ ind5 }

/-- Result of `_analyze_leadership`. -/
structure LeadData : Type where
  responsibilities : List Str
  mentorship : List Str

/-- `EnhancedCVAnalyzer._analyze_leadership` (423–457). -/
def analyze_leadership (text : Str) : LeadData :=
  let pairs : List (Str × Str) :=
    [(strToCodes "líder", strToCodes "Atuação como líder de equipe"),
     (strToCodes "lead", strToCodes "Liderança técnica"),
     (strToCodes "coordenação", strToCodes "Coordenação de projetos"),
     (strToCodes "gestão", strToCodes "Gestão de equipe/projetos"),
     (strToCodes "coordenador", strToCodes "Coordenação"),
     (strToCodes "gerente", strToCodes "Gestão")]
  let responsibilities :=
    (pairs.filter (fun p => Py.containsSub text p.1)).map Prod.snd
  let m1 : List Str :=
    if Py.containsSub text (strToCodes "mentor") ||
       Py.containsSub text (strToCodes "mentoria") then
      [strToCodes "Experiência em mentoria"] else []
  let m2 : List Str :=
    if Py.containsSub text (strToCodes "treinamento") ||
       Py.containsSub text (strToCodes "training") then
      [strToCodes "Treinamento de equipe"] else []
  let m3 : List Str :=
    if Py.containsSub text (strToCodes "code review") ||
       Py.containsSub text (strToCodes "revisão") then
      [strToCodes "Participação em code reviews"] else []
  let mentorship := m1 ++ m2 ++ m3
  { responsibilities :=
      if responsibilities.isEmpty then [strToCodes "Experiência técnica individual"]
      else responsibilities,
    mentorship :=
      if mentorship.isEmpty then [strToCodes "Não evidenciado"] else mentorship }

/-- Result of `_analyze_education`. -/
structure EduData : Type where
  level : Str
  score : Nat

/-- `EnhancedCVAnalyzer._analyze_education` (459–474): the highest level
whose keyword occurs, strictly-greater updates only. -/
def analyze_education (text : Str) : EduData :=
  let res := educationLevels.foldl
    (fun (acc : Str × Nat) e =>
      if Py.containsSub text e.1 ∧ acc.2 < e.2 then (Py.title e.1, e.2) else acc)
    (strToCodes "Não informado", 0)
  { level := res.1, score := res.2 }

/-- Result of `_calculate_scores_calibrated`. -/
structure Scores : Type where
  technical : ℚ
  experience : ℚ
  soft_skills : ℚ
  projects : ℚ
  overall : ℚ

/-- `EnhancedCVAnalyzer._calculate_scores_calibrated` (476–556). -/
def calculate_scores_calibrated (tech_match : TechMatch) (experience : ExpData)
    (projects : ProjData) (leadership : LeadData) (education : EduData)
    (seniority : SenInfo) (cv_length : Nat) : Scores :=
  let technical := if cv_length < 500 then tech_match.score * (4/5) else tech_match.score
  let exp0 : ℚ :=
    if experience.years ≥ 8 then 9
    else if experience.years ≥ 5 then 8
    else if experience.years ≥ 3 then 7
    else if experience.years ≥ 2 then 6
    else 5
  let exp_score := min 10 (exp0 + min 1 ((experience.action_verbs_count : ℚ) * (1/10)))
  let soft0 : ℚ := 11/2
  let soft1 : ℚ :=
    if 3 ≤ leadership.responsibilities.length then soft0 + 5/2
    else if 2 ≤ leadership.responsibilities.length then soft0 + 3/2
    else if 1 < leadership.responsibilities.length then soft0 + 4/5
    else soft0
  let soft2 : ℚ :=
    if 2 ≤ leadership.mentorship.length then soft1 + 3/2
    else if ¬ (strToCodes "Não evidenciado" ∈ leadership.mentorship) then soft1 + 1/2
    else soft1
  let soft := min 10 soft2
  let project_score : ℚ :=
    if 10 ≤ projects.count then 17/2
    else if 5 ≤ projects.count then 7
    else if 3 ≤ projects.count then 6
    else 9/2
  let overall0 :=
    technical * (7/20) + exp_score * (3/10) + soft * (1/5) + project_score * (3/20)
  let seniority_factor := 9/10 + (seniority.multiplier - 1) * (1/2)
  let overall1 := overall0 * seniority_factor
  let overall2 := min 10 (overall1 + (education.score : ℚ) * (1/5))
  let overall := max 2 (min 10 overall2)
  { technical := PyQ.round1 technical, experience := PyQ.round1 exp_score,
    soft_skills := PyQ.round1 soft, projects := PyQ.round1 project_score,
    overall := PyQ.round1 overall }

end Enh

namespace Enh

open PyVal

/-- Result of `_generate_detailed_feedback`. -/
structure Feedback : Type where
  strengths : Str
  weaknesses : Str
  recommendation : Str
  recommendation_reason : Str
  summary : Str
  risks : Str

/-- `int(x)` rendered as text (`f"{int(years)}"`). -/
def intOfQ (q : ℚ) : Str := Py.intStr (PyQ.pyTrunc q)

/-- `EnhancedCVAnalyzer._generate_detailed_feedback` (558–685). -/
def generate_detailed_feedback (tech_match : TechMatch) (experience : ExpData)
    (projects : ProjData) (leadership : LeadData) (seniority : SenInfo)
    (scores : Scores) (cv_tech : TechInfo) : Feedback :=
  let pct := tech_match.percentage
  let commaJoin := Py.joinSep (strToCodes ", ")
  -- strengths
  let s1 : List Str :=
    if pct ≥ 80 then
      [strToCodes "✅ Excelente match técnico (" ++ PyQ.fmt0 pct ++
       strToCodes "% das skills requisitadas)"]
    else if pct ≥ 60 then
      [strToCodes "✅ Bom alinhamento técnico (" ++
       Py.natDigits tech_match.matched.length ++ strToCodes " tecnologias match)"]
    else if pct ≥ 40 then
      [strToCodes "✅ Alinhamento técnico parcial (" ++
       Py.natDigits tech_match.matched.length ++ strToCodes " skills)"]
    else []
  let s2 : List Str :=
    if experience.years ≥ 5 then
      [strToCodes "✅ Experiência sólida de " ++ intOfQ experience.years ++
       strToCodes " anos na área"]
    else if experience.years ≥ 3 then
      [strToCodes "✅ Experiência relevante de " ++ intOfQ experience.years ++
       strToCodes " anos"]
    else []
  let s3 : List Str :=
    if 8 ≤ projects.count then
      [strToCodes "✅ Histórico robusto: " ++ Py.natDigits projects.count ++
       strToCodes "+ projetos/implementações"]
    else if 4 ≤ projects.count then
      [strToCodes "✅ Experiência prática: " ++ Py.natDigits projects.count ++
       strToCodes " projetos identificados"]
    else []
  let s4 : List Str :=
    if 2 ≤ leadership.responsibilities.length ∧
        ¬ Py.containsSub (Py.lower (leadership.responsibilities.headD []))
          (strToCodes "individual") then
      [strToCodes "✅ Experiência em liderança: " ++
       commaJoin (leadership.responsibilities.take 2)]
    else []
  let s5 : List Str :=
    if seniority.level = strToCodes "Sênior" ∨ seniority.level = strToCodes "Expert" then
      [strToCodes "✅ Perfil " ++ seniority.level ++
       strToCodes " com maturidade profissional"]
    else []
  let strengths0 := s1 ++ s2 ++ s3 ++ s4 ++ s5
  let strengths :=
    if strengths0.isEmpty then
      [strToCodes "Candidato com potencial a ser explorado em entrevista"]
    else strengths0
  -- weaknesses
  let w1 : List Str :=
    if pct < 40 then
      [strToCodes "⚠️ Gap técnico significativo: " ++
       Py.natDigits tech_match.missing.length ++
       strToCodes " skills da vaga ausentes no CV"] ++
      (if !tech_match.missing.isEmpty then
        [strToCodes "⚠️ Skills ausentes críticas: " ++
         commaJoin (tech_match.missing.take 4)]
       else [])
    else if pct < 60 then
      [strToCodes "⚠️ Gap técnico moderado: " ++
       Py.natDigits tech_match.missing.length ++
       strToCodes " skills não evidentes"] ++
      (if tech_match.missing.length ≤ 3 then
        [strToCodes "⚠️ Skills ausentes: " ++ commaJoin tech_match.missing]
       else [])
    else []
  let w2 : List Str :=
    if cv_tech.all_skills.length < 5 then
      [strToCodes "⚠️ Portfólio tecnológico limitado (" ++
       Py.natDigits cv_tech.all_skills.length ++ strToCodes " skills)"]
    else []
  let w3 : List Str :=
    if experience.years < 2 then
      [strToCodes "⚠️ Experiência profissional inicial (" ++
       intOfQ experience.years ++ strToCodes " ano" ++
       (if experience.years ≠ 1 then [115] else []) ++ [41]]
    else []
  let w4 : List Str :=
    if !experience.has_explicit_years then
      [strToCodes "⚠️ Anos de experiência não explicitados no CV"]
    else []
  let w5 : List Str :=
    if projects.count < 3 then
      [strToCodes "⚠️ Poucos projetos/implementações detalhados"]
    else []
  let w6 : List Str :=
    if Py.containsSub (Py.lower (leadership.responsibilities.headD []))
        (strToCodes "individual") then
      [strToCodes "⚠️ Pouca evidência de liderança ou gestão de equipe"]
    else []
  let weaknesses0 := w1 ++ w2 ++ w3 ++ w4 ++ w5 ++ w6
  let weaknesses :=
    if weaknesses0.isEmpty then
      [strToCodes "Perfil adequado - Validar fit cultural em entrevista"]
    else weaknesses0
  -- recommendation
  let score := scores.overall
  let recPair : Str × Str :=
    if score ≥ 17/2 then
      (strToCodes "Altamente Recomendado",
       strToCodes "Candidato excepcional com score " ++ PyQ.reprF score ++
       strToCodes "/10. Forte alinhamento técnico (" ++ PyQ.fmt0 pct ++
       strToCodes "%) e " ++ intOfQ experience.years ++
       strToCodes " anos de experiência.")
    else if score ≥ 7 then
      (strToCodes "Recomendado",
       strToCodes "Candidato qualificado (score " ++ PyQ.reprF score ++
       strToCodes "/10) com bom fit para a vaga. " ++
       Py.natDigits tech_match.matched.length ++
       strToCodes " skills alinhadas e experiência de " ++
       intOfQ experience.years ++ strToCodes " anos.")
    else if score ≥ 11/2 then
      (strToCodes "Análise Manual Recomendada",
       strToCodes "Score " ++ PyQ.reprF score ++
       strToCodes "/10 - Potencial identificado mas requer validação em entrevista. Gap técnico de " ++
       Py.natDigits tech_match.missing.length ++ strToCodes " skills.")
    else
      (strToCodes "Não Recomendado",
       strToCodes "Score " ++ PyQ.reprF score ++
       strToCodes "/10 - Baixa aderência aos requisitos. Gap técnico significativo e experiência limitada.")
  -- summary
  let p1 : List Str :=
    [strToCodes "Profissional " ++ seniority.level ++ strToCodes " com " ++
     intOfQ experience.years ++ strToCodes " ano" ++
     (if experience.years ≠ 1 then [115] else []) ++
     strToCodes " de experiência"]
  let p2 : List Str :=
    if 0 < cv_tech.all_skills.length then
      [strToCodes "Domínio de " ++ Py.natDigits cv_tech.all_skills.length ++
       strToCodes " tecnologias, incluindo " ++ commaJoin (cv_tech.all_skills.take 5)]
    else []
  let p3 : List Str :=
    if 3 ≤ projects.count then
      [Py.natDigits projects.count ++ strToCodes "+ projetos/implementações no histórico"]
    else []
  let p4 : List Str :=
    if !tech_match.matched.isEmpty then
      [strToCodes "Match com " ++ Py.natDigits tech_match.matched.length ++
       strToCodes " skills da vaga: " ++ commaJoin (tech_match.matched.take 4)]
    else []
  let summary := Py.joinSep (strToCodes ". ") (p1 ++ p2 ++ p3 ++ p4) ++ [46]
  -- risks
  let r1 : List Str :=
    if pct < 30 then
      [strToCodes "🔴 Alto risco: Gap técnico crítico - Requer capacitação extensiva"]
    else if pct < 50 then
      [strToCodes "🟡 Risco moderado: Gap técnico significativo"]
    else []
  let r2 : List Str :=
    if experience.years < 1 then
      [strToCodes "🔴 Alto risco: Experiência muito limitada para a vaga"]
    else if experience.years < 2 ∧ seniority.level ≠ strToCodes "Junior" then
      [strToCodes "🟡 Senioridade pode não estar alinhada com experiência"]
    else []
  let r3 : List Str :=
    if projects.count < 2 then
      [strToCodes "🟡 Poucos projetos comprovados - Validar em entrevista"]
    else []
  let r4 : List Str :=
    if cv_tech.all_skills.length < 4 then
      [strToCodes "🟡 Portfólio tecnológico limitado"]
    else []
  let risks0 := r1 ++ r2 ++ r3 ++ r4
  let risks :=
    if risks0.isEmpty then
      [strToCodes "✅ Nenhum risco crítico identificado",
       strToCodes "✅ Perfil alinhado com a vaga"]
    else risks0
  { strengths := Py.joinSep [10] strengths,
    weaknesses := Py.joinSep [10] weaknesses,
    recommendation := recPair.1,
    recommendation_reason := recPair.2,
    summary := summary,
    risks := Py.joinSep [10] risks }

/-- `EnhancedCVAnalyzer.analyze` (107–210): the full local analysis,
returning the result dictionary.  `currentYear` abstracts
`datetime.now().year` and `now` the ISO timestamp. -/
def analyze (cv_text job_description : Str) (_candidate_name : Str)
    (currentYear : Nat) (now : Str) : PyVal :=
  let cv_lower := Py.lower cv_text
  let job_lower := Py.lower job_description
  let cv_tech := extract_all_technologies cv_lower
  let job_tech := extract_all_technologies job_lower
  let tech_match := calculate_tech_match cv_tech job_tech
  let experience_data := analyze_experience cv_text currentYear
  let seniority := detect_seniority cv_lower experience_data.years
  let projects_data := analyze_projects cv_text
  let leadership := analyze_leadership cv_lower
  let education := analyze_education cv_lower
  let scores := calculate_scores_calibrated tech_match experience_data projects_data
    leadership education seniority cv_text.length
  let feedback := generate_detailed_feedback tech_match experience_data projects_data
    leadership seniority scores cv_tech
  vDict
  [("contact_info", vDict
      [("email", vStr (strToCodes "Extrair do formulário")),
       ("phone", vStr (strToCodes "Extrair do formulário")),
       ("linkedin", vStr (strToCodes "Extrair do formulário"))]),
   ("extracted_skills", vList ((cv_tech.all_skills.take 20).map vStr)),
   ("matched_skills", vList (tech_match.matched.map vStr)),
   ("missing_skills", vList ((tech_match.missing.take 5).map vStr)),
   ("seniority_detected", vStr seniority.level),
   ("experience_years", vNum experience_data.years),
   ("experience_summary", vStr (seniority.level ++ strToCodes " • " ++
      PyQ.fmt0 experience_data.years ++ strToCodes " anos • " ++
      Py.natDigits cv_tech.all_skills.length ++ strToCodes " skills identificadas")),
   ("leadership_responsibilities", vList (leadership.responsibilities.map vStr)),
   ("complexity_indicators", vList (projects_data.complexity_indicators.map vStr)),
   ("mentorship_indicators", vList (leadership.mentorship.map vStr)),
   ("strengths", vStr feedback.strengths),
   ("weaknesses", vStr feedback.weaknesses),
   ("professional_summary", vStr feedback.summary),
   ("hard_skills_score", vNum scores.technical),
   ("soft_skills_score", vNum scores.soft_skills),
   ("experience_score", vNum scores.experience),
   ("overall_score", vNum scores.overall),
   ("recommendation", vStr feedback.recommendation),
   ("recommendation_reason", vStr feedback.recommendation_reason),
   ("potential_risks", vStr feedback.risks),
   ("analysis_source", vStr (strToCodes "🤖 Enhanced Local Analyzer")),
   ("analysis_timestamp", vStr now),
   ("provider", vStr (strToCodes "enhanced_local")),
   ("confidence_level", vStr (strToCodes "Alta - Análise estruturada avançada")),
   ("total_skills_found", vNum cv_tech.all_skills.length),
   ("skill_match_percentage", vNum tech_match.percentage),
   ("projects_mentioned", vNum projects_data.count),
   ("education_level", vStr education.level),
   ("analysis_note", vStr (strToCodes "✅ Análise avançada com múltiplos critérios"))]

end Enh

/-! ## Shared lemmas -/

namespace Py

theorem lowerChar_idem (c : Nat) : lowerChar (lowerChar c) = lowerChar c := by
  unfold lowerChar
  split_ifs with h1 h2 h3 <;>
    simp only [Bool.or_eq_true, Bool.and_eq_true, decide_eq_true_eq] at * <;> omega

theorem lower_idem (s : Str) : lower (lower s) = lower s := by
  unfold lower
  rw [List.map_map]
  exact List.map_congr_left (fun c _ => lowerChar_idem c)

theorem lower_fixed_of_chars (s : Str) (h : ∀ c ∈ s, lowerChar c = c) :
    lower s = s := by
  unfold lower
  exact List.map_congr_left h |>.trans (List.map_id s)

theorem mem_lower_fixed (s : Str) (c : Nat) (h : c ∈ lower s) :
    lowerChar c = c := by
  unfold lower at h
  obtain ⟨d, _, rfl⟩ := List.mem_map.mp h
  exact lowerChar_idem d

theorem mem_replaceAllGo (fuel : Nat) (s pat rep : Str) (c : Nat)
    (h : c ∈ replaceAllGo fuel s pat rep) : c ∈ s ∨ c ∈ rep := by
  induction fuel generalizing s with
  | zero => simp [replaceAllGo] at h
  | succ fuel ih =>
    cases s with
    | nil => simp [replaceAllGo] at h
    | cons x r =>
      rw [replaceAllGo] at h
      split at h
      · rcases List.mem_append.mp h with hc | hc
        · exact Or.inr hc
        · rcases ih _ hc with h1 | h1
          · exact Or.inl (List.mem_of_mem_drop h1)
          · exact Or.inr h1
      · rcases List.mem_cons.mp h with rfl | hc
        · exact Or.inl (List.mem_cons_self _ _)
        · rcases ih r hc with h1 | h1
          · exact Or.inl (List.mem_cons_of_mem _ h1)
          · exact Or.inr h1

theorem mem_replaceAll (s pat rep : Str) (c : Nat) (h : c ∈ replaceAll s pat rep) :
    c ∈ s ∨ c ∈ rep :=
  mem_replaceAllGo s.length s pat rep c h

theorem dropWhile_head_all (p : Nat → Bool) (l : Str) :
    (l.dropWhile p).head?.all (fun c => !p c) = true := by
  induction l with
  | nil => simp [List.dropWhile]
  | cons c r ih =>
    rw [List.dropWhile_cons]
    split
    · exact ih
    · rename_i hp
      simp [hp]

theorem getLast?_dropWhile (p : Nat → Bool) (l : Str)
    (h : l.dropWhile p ≠ []) : (l.dropWhile p).getLast? = l.getLast? := by
  induction l with
  | nil => simp [List.dropWhile] at h
  | cons c r ih =>
    rw [List.dropWhile_cons] at h ⊢
    by_cases hp : p c
    · rw [if_pos hp] at h ⊢
      rw [ih h]
      cases r with
      | nil => simp [List.dropWhile] at h
      | cons b l => rw [List.getLast?_cons_cons]
    · rw [if_neg hp] at h ⊢

/-- A string has no leading and no trailing whitespace. -/
def Stripped (s : Str) : Prop :=
  s.head?.all (fun c => !isSpace c) = true ∧
  s.getLast?.all (fun c => !isSpace c) = true

theorem strip_stripped (s : Str) : Stripped (strip s) := by
  unfold strip Stripped
  constructor
  · rw [List.head?_reverse]
    by_cases h : (s.dropWhile isSpace).reverse.dropWhile isSpace = []
    · rw [h]; simp
    · rw [getLast?_dropWhile _ _ h, List.getLast?_reverse]
      have := dropWhile_head_all isSpace s
      exact this
  · rw [List.getLast?_reverse]
    exact dropWhile_head_all isSpace _

end Py

/-! ## Claims -/

/-- C1: `AIAnalyzer.analyze_candidate` follows the provider chain in
order — Tess first when configured (`tess = some _`), the enhanced local
analyzer when Tess is unavailable or raises, and the static emergency
payload (provider `"error"`, recommendation `"Erro de Sistema"`,
`overall_score` 0) when the enhanced analyzer also raises.  The function
is total on outcomes: it never propagates an exception. -/
theorem C1_provider_chain (tess : Option (Except Str PyVal))
    (enhanced : Except Str PyVal) (cand job : PyVal) (now : Str) :
    (∀ r, tess = some (Except.ok r) →
      Ai.analyze_candidate tess enhanced cand job now = r) ∧
    (∀ r, (tess = none ∨ ∃ e, tess = some (Except.error e)) →
      enhanced = Except.ok r →
      Ai.analyze_candidate tess enhanced cand job now = r) ∧
    (∀ e₂, (tess = none ∨ ∃ e₁, tess = some (Except.error e₁)) →
      enhanced = Except.error e₂ →
      Ai.analyze_candidate tess enhanced cand job now =
        Ai.emergency_fallback cand job e₂ now ∧
      PyVal.dget (Ai.analyze_candidate tess enhanced cand job now) "provider" =
        some (PyVal.vStr (strToCodes "error")) ∧
      PyVal.dget (Ai.analyze_candidate tess enhanced cand job now) "recommendation" =
        some (PyVal.vStr (strToCodes "Erro de Sistema")) ∧
      PyVal.dget (Ai.analyze_candidate tess enhanced cand job now) "overall_score" =
        some (PyVal.vNum 0)) := by
  refine ⟨?_, ?_, ?_⟩
  · rintro r rfl
    rfl
  · rintro r (rfl | ⟨e, rfl⟩) rfl <;> rfl
  · rintro e₂ (rfl | ⟨e₁, rfl⟩) rfl <;>
      exact ⟨rfl, rfl, rfl, rfl⟩

/-- Witness for C1 at concrete provider outcomes, covering all three
stages of the chain. -/
theorem C1_provider_chain_witness :
    Ai.analyze_candidate (some (Except.ok (PyVal.vNum 1))) (Except.ok (PyVal.vNum 2))
      (PyVal.vDict []) (PyVal.vDict []) [] = PyVal.vNum 1 ∧
    Ai.analyze_candidate (some (Except.error (strToCodes "http 500")))
      (Except.ok (PyVal.vNum 2)) (PyVal.vDict []) (PyVal.vDict []) [] = PyVal.vNum 2 ∧
    Ai.analyze_candidate none (Except.error (strToCodes "boom"))
      (PyVal.vDict []) (PyVal.vDict []) [] =
      Ai.emergency_fallback (PyVal.vDict []) (PyVal.vDict []) (strToCodes "boom") [] ∧
    PyVal.dget (Ai.analyze_candidate none (Except.error (strToCodes "boom"))
      (PyVal.vDict []) (PyVal.vDict []) []) "overall_score" = some (PyVal.vNum 0) :=
  ⟨(C1_provider_chain _ _ _ _ _).1 _ rfl,
   (C1_provider_chain _ _ _ _ _).2.1 _ (Or.inr ⟨_, rfl⟩) rfl,
   ((C1_provider_chain _ _ _ _ _).2.2 _ (Or.inl rfl) rfl).1,
   ((C1_provider_chain _ _ _ _ _).2.2 _ (Or.inl rfl) rfl).2.2.2⟩

/-- C6: `extract_text_from_pdf` tries `pdfplumber` first and falls back
to `PyPDF2` on any exception; when both fail it returns the empty
string.  In all cases the page texts are newline-joined and the result
is stripped of surrounding whitespace; the function is total. -/
theorem C6_pdf_fallback (plumber pypdf : App.PdfOutcome) :
    (∀ pages, plumber = Except.ok pages →
      App.extract_text_from_pdf plumber pypdf = Py.strip (App.concatPages pages)) ∧
    (∀ e pages, plumber = Except.error e → pypdf = Except.ok pages →
      App.extract_text_from_pdf plumber pypdf = Py.strip (App.concatPages pages)) ∧
    (∀ e₁ e₂, plumber = Except.error e₁ → pypdf = Except.error e₂ →
      App.extract_text_from_pdf plumber pypdf = []) ∧
    Py.Stripped (App.extract_text_from_pdf plumber pypdf) := by
  refine ⟨?_, ?_, ?_, ?_⟩
  · rintro pages rfl
    rfl
  · rintro e pages rfl rfl
    rfl
  · rintro e₁ e₂ rfl rfl
    rfl
  · cases plumber with
    | ok pages => exact Py.strip_stripped _
    | error e =>
      cases pypdf with
      | ok pages => exact Py.strip_stripped _
      | error e₂ => exact ⟨rfl, rfl⟩

/-- Witness for C6: a successful `pdfplumber` run with one empty page,
a `PyPDF2` fallback run, and the double-failure case. -/
theorem C6_pdf_fallback_witness :
    App.extract_text_from_pdf
      (Except.ok [some (strToCodes " Olá "), none]) (Except.error []) =
      Py.strip (App.concatPages [some (strToCodes " Olá "), none]) ∧
    App.extract_text_from_pdf (Except.error (strToCodes "bad pdf"))
      (Except.ok [some (strToCodes "p1"), some (strToCodes "p2")]) =
      Py.strip (App.concatPages [some (strToCodes "p1"), some (strToCodes "p2")]) ∧
    App.extract_text_from_pdf (Except.error (strToCodes "bad"))
      (Except.error (strToCodes "worse")) = [] :=
  ⟨(C6_pdf_fallback _ _).1 _ rfl,
   (C6_pdf_fallback _ _).2.1 _ _ rfl rfl,
   ((C6_pdf_fallback _ _).2.2.1) _ _ rfl rfl⟩

/-- C2 is refuted: on a concrete resume, `extract_candidate_info`
returns a record whose only fields are `name`, `email` and `phone`; no
LinkedIn URL, city/state, years-of-experience or education-level field
exists. -/
theorem C2_counterexample :
    (App.extract_candidate_info
        (strToCodes "Maria Souza\nmaria@email.com\n(11) 98765-4321")
        (strToCodes "cv.pdf")).map Prod.fst = ["name", "email", "phone"] ∧
    ¬ ("linkedin_url" ∈ (App.extract_candidate_info
        (strToCodes "Maria Souza\nmaria@email.com\n(11) 98765-4321")
        (strToCodes "cv.pdf")).map Prod.fst) ∧
    ¬ ("city" ∈ (App.extract_candidate_info
        (strToCodes "Maria Souza\nmaria@email.com\n(11) 98765-4321")
        (strToCodes "cv.pdf")).map Prod.fst) ∧
    ¬ ("years_experience" ∈ (App.extract_candidate_info
        (strToCodes "Maria Souza\nmaria@email.com\n(11) 98765-4321")
        (strToCodes "cv.pdf")).map Prod.fst) ∧
    ¬ ("education_level" ∈ (App.extract_candidate_info
        (strToCodes "Maria Souza\nmaria@email.com\n(11) 98765-4321")
        (strToCodes "cv.pdf")).map Prod.fst) := by
  have h : (App.extract_candidate_info
      (strToCodes "Maria Souza\nmaria@email.com\n(11) 98765-4321")
      (strToCodes "cv.pdf")).map Prod.fst = ["name", "email", "phone"] := rfl
  refine ⟨h, ?_, ?_, ?_, ?_⟩ <;> (rw [h]; decide)

/-- C2 (amended): resume ingestion extracts only `name`, `email` and
`phone` — for every resume text and filename the returned record has
exactly those three fields, in that order. -/
theorem C2_record_fields (resume_text filename : Str) :
    (App.extract_candidate_info resume_text filename).map Prod.fst =
      ["name", "email", "phone"] := rfl

theorem emailMatchAt_ne_nil (s : Str) (prev : Option Nat) (m rem : Str)
    (h : App.emailMatchAt s prev = some (m, rem)) : m ≠ [] := by
  unfold App.emailMatchAt at h
  match s, h with
  | c :: r, h =>
    simp only at h
    split at h
    case isFalse => exact absurd h (by simp)
    case isTrue hcl =>
      split at h
      case h_2 => exact absurd h (by simp)
      case h_1 s2 heq =>
        split at h
        case isTrue => exact absurd h (by simp)
        case isFalse hrun =>
          split at h
          case h_2 => exact absurd h (by simp)
          case h_1 dom rem' hdb =>
            obtain ⟨h1, h2⟩ := Prod.mk.injEq .. ▸ (Option.some.injEq .. ▸ h)
            subst h1
            simp

theorem findEmailsGo_head_ne_nil (fuel : Nat) (s : Str) (prev : Option Nat)
    (m : Str) (rest : List Str) (h : App.findEmailsGo fuel s prev = m :: rest) :
    m ≠ [] := by
  induction fuel generalizing s prev with
  | zero => simp [App.findEmailsGo] at h
  | succ fuel ih =>
    cases s with
    | nil => simp [App.findEmailsGo] at h
    | cons c r =>
      rw [App.findEmailsGo] at h
      split at h
      · rename_i m' rem hm
        simp only [List.cons.injEq] at h
        obtain ⟨rfl, -⟩ := h
        exact emailMatchAt_ne_nil _ _ _ _ hm
      · exact ih _ _ h

theorem findEmails_head_ne_nil (s : Str) (prev : Option Nat) (m : Str)
    (rest : List Str) (h : App.findEmails s prev = m :: rest) : m ≠ [] :=
  findEmailsGo_head_ne_nil s.length s prev m rest h

/-- C8: the email produced by `extract_candidate_info` is always
nonempty and lowercase; it is the first match of the email regex
lowercased when one exists, and otherwise the placeholder built from the
inferred name (lowercased, spaces replaced by dots, double dots
collapsed) with the domain `@temporario.pendente`. -/
theorem C8_email (text filename : Str) :
    ∃ n e,
      ((App.extract_candidate_info text filename).find?
        (fun p => p.1 = "name")).map Prod.snd = some n ∧
      ((App.extract_candidate_info text filename).find?
        (fun p => p.1 = "email")).map Prod.snd = some e ∧
      e ≠ [] ∧
      Py.lower e = e ∧
      (∀ m rest, App.findEmails text = m :: rest → e = Py.lower m) ∧
      (App.findEmails text = [] →
        e = Py.replaceAll (Py.replaceAll (Py.lower n) [32] [46]) [46, 46] [46] ++
          strToCodes "@temporario.pendente") := by
  refine ⟨_, _, rfl, rfl, ?_, ?_, ?_, ?_⟩
  · cases hfe : App.findEmails text with
    | nil =>
      simp only [hfe]
      refine List.append_ne_nil_of_right_ne_nil _ ?_
      decide
    | cons m rest =>
      simp only [hfe]
      have hm := findEmails_head_ne_nil text none m rest hfe
      simp [Py.lower, hm]
  · cases hfe : App.findEmails text with
    | nil =>
      simp only [hfe]
      rw [Py.lower, List.map_append]
      have h2 : Py.lower (strToCodes "@temporario.pendente") =
          strToCodes "@temporario.pendente" := by decide
      rw [Py.lower] at h2
      rw [h2]
      congr 1
      have : ∀ c ∈ Py.replaceAll (Py.replaceAll (Py.lower
          (match List.find? App.goodNameLine
            (List.map Py.strip (List.take 10 (Py.splitOnChar 10 text))) with
          | some l => Py.title l
          | none =>
            Py.title (Py.replaceAll (Py.replaceAll (App.splitextRoot filename)
              [95] [32]) [45] [32]))) [32] [46]) [46, 46] [46],
          Py.lowerChar c = c := by
        intro c hc
        rcases Py.mem_replaceAll _ _ _ _ hc with hc1 | hc1
        · rcases Py.mem_replaceAll _ _ _ _ hc1 with hc2 | hc2
          · exact Py.mem_lower_fixed _ _ hc2
          · rw [List.mem_singleton] at hc2
            subst hc2
            decide
        · rw [List.mem_singleton] at hc1
          subst hc1
          decide
      exact Py.lower_fixed_of_chars _ this
    | cons m rest =>
      simp only [hfe]
      exact Py.lower_idem m
  · intro m rest hfe
    simp only [hfe]
  · intro hfe
    simp only [hfe]

/-- Witness for C8 at two concrete resumes: one containing an email
match (first regex match, lowercased), one without (placeholder). -/
theorem C8_email_witness :
    ((App.extract_candidate_info (strToCodes "Ana Lima\nana.LIMA@mail.com")
        (strToCodes "cv.pdf")).find? (fun p => p.1 = "email")).map Prod.snd =
      some (strToCodes "ana.lima@mail.com") ∧
    ((App.extract_candidate_info (strToCodes "Ana Lima\nsem contato")
        (strToCodes "cv.pdf")).find? (fun p => p.1 = "email")).map Prod.snd =
      some (strToCodes "ana.lima@temporario.pendente") := by
  constructor
  · obtain ⟨n, e, h1, h2, h3, h4, h5, h6⟩ :=
      C8_email (strToCodes "Ana Lima\nana.LIMA@mail.com") (strToCodes "cv.pdf")
    rw [h2, h5 (strToCodes "ana.LIMA@mail.com") [] (by rfl)]
    rfl
  · obtain ⟨n, e, h1, h2, h3, h4, h5, h6⟩ :=
      C8_email (strToCodes "Ana Lima\nsem contato") (strToCodes "cv.pdf")
    have hx : ((App.extract_candidate_info (strToCodes "Ana Lima\nsem contato")
        (strToCodes "cv.pdf")).find? (fun p => p.1 = "name")).map Prod.snd =
        some (strToCodes "Ana Lima") := rfl
    rw [hx] at h1
    have hn := Option.some.inj h1
    rw [h2, h6 (by rfl), ← hn]
    rfl

theorem structure_response_ok {jsonRes : Option (List (String × PyVal))}
    {output : Str} {cd rd : PyVal} {now : Str} {r : PyVal}
    (h : Ai.structure_response jsonRes output cd rd now = Except.ok r) :
    ∃ st, r = Ai.assembleTess (Ai.parse_json_response jsonRes output)
      (Ai.tessExtractScore (Ai.parse_json_response jsonRes output))
      cd rd output now st := by
  simp only [Ai.structure_response] at h
  cases hs : Ai.tessSteps (Ai.parse_json_response jsonRes output) cd with
  | ok st =>
    rw [hs] at h
    simp only [Except.map] at h
    exact ⟨st, (Except.ok.inj h).symm⟩
  | error e =>
    rw [hs] at h
    simp [Except.map] at h

/-- The fixed result schema of the claims: the seven keys every provider
output must contain. -/
def requiredKeys : List String :=
  ["overall_score", "hard_skills_score", "soft_skills_score",
   "extracted_skills", "strengths", "weaknesses", "recommendation"]

theorem keys_assembleTess (analysis : List (String × PyVal)) (score : ℚ)
    (cd rd : PyVal) (output now : Str) (st : Ai.TessSteps) :
    PyVal.keys (Ai.assembleTess analysis score cd rd output now st) =
    ["contact_info", "extracted_skills", "matched_skills", "missing_skills",
     "seniority_detected", "experience_years", "experience_summary",
     "leadership_responsibilities", "complexity_indicators",
     "mentorship_indicators", "strengths", "weaknesses",
     "professional_summary", "hard_skills_score", "soft_skills_score",
     "experience_score", "overall_score", "recommendation",
     "recommendation_reason", "potential_risks", "analysis_source",
     "analysis_timestamp", "provider", "confidence_level", "tess_raw_output",
     "tess_full_response", "tess_json_analysis", "total_skills_found",
     "skill_match_percentage", "projects_mentioned", "education_level",
     "soft_skills_identified", "hard_skills_detailed", "job_positions",
     "analysis_note"] := rfl

theorem keys_enhanced (cv jd nm : Str) (cy : Nat) (now : Str) :
    PyVal.keys (Enh.analyze cv jd nm cy now) =
    ["contact_info", "extracted_skills", "matched_skills", "missing_skills",
     "seniority_detected", "experience_years", "experience_summary",
     "leadership_responsibilities", "complexity_indicators",
     "mentorship_indicators", "strengths", "weaknesses",
     "professional_summary", "hard_skills_score", "soft_skills_score",
     "experience_score", "overall_score", "recommendation",
     "recommendation_reason", "potential_risks", "analysis_source",
     "analysis_timestamp", "provider", "confidence_level",
     "total_skills_found", "skill_match_percentage", "projects_mentioned",
     "education_level", "analysis_note"] := rfl

theorem keys_emergency (cd jr : PyVal) (e now : Str) :
    PyVal.keys (Ai.emergency_fallback cd jr e now) =
    ["contact_info", "extracted_skills", "matched_skills", "missing_skills",
     "seniority_detected", "experience_years", "experience_summary",
     "strengths", "weaknesses", "professional_summary", "hard_skills_score",
     "soft_skills_score", "experience_score", "overall_score",
     "recommendation", "recommendation_reason", "potential_risks",
     "analysis_source", "analysis_timestamp", "provider",
     "confidence_level", "error"] := rfl

/-- C3: every provider path produces the fixed result schema: any
dictionary returned by the Tess path, the enhanced local path or the
emergency fallback contains the keys `overall_score`,
`hard_skills_score`, `soft_skills_score`, `extracted_skills`,
`strengths`, `weaknesses` and `recommendation`. -/
theorem C3_result_schema (jsonRes : Option (List (String × PyVal)))
    (output : Str) (cd rd : PyVal) (now : Str) (cv jd nm : Str) (cy : Nat)
    (now2 : Str) (e : Str) :
    (∀ r, Ai.structure_response jsonRes output cd rd now = Except.ok r →
      requiredKeys ⊆ PyVal.keys r) ∧
    requiredKeys ⊆ PyVal.keys (Enh.analyze cv jd nm cy now2) ∧
    requiredKeys ⊆ PyVal.keys (Ai.emergency_fallback cd rd e now) := by
  refine ⟨?_, ?_, ?_⟩
  · intro r h
    obtain ⟨st, rfl⟩ := structure_response_ok h
    rw [keys_assembleTess]
    intro k hk
    fin_cases hk <;> simp
  · rw [keys_enhanced]
    intro k hk
    fin_cases hk <;> simp
  · rw [keys_emergency]
    intro k hk
    fin_cases hk <;> simp

/-- Witness for C3: a successful Tess structuring at a concrete parsed
response. -/
theorem C3_result_schema_witness :
    ∃ r, Ai.structure_response (some [("score", PyVal.vNum 7)]) []
        (PyVal.vDict []) (PyVal.vDict []) [] = Except.ok r ∧
      requiredKeys ⊆ PyVal.keys r :=
  ⟨_, rfl, (C3_result_schema (some [("score", PyVal.vNum 7)]) []
    (PyVal.vDict []) (PyVal.vDict []) [] [] [] [] 0 [] []).1 _ rfl⟩

set_option maxHeartbeats 1000000 in
theorem extract_score_mem (text : Str) :
    0 ≤ Ai.extract_score text ∧ Ai.extract_score text ≤ 10 := by
  have hb : ∀ v : ℚ, 0 ≤ min 10 (max 0 v) ∧ min 10 (max 0 v) ≤ 10 :=
    fun v => ⟨le_min (by norm_num) (le_max_left 0 _), min_le_left _ _⟩
  simp only [Ai.extract_score]
  repeat' split
  all_goals
    first
    | exact hb _
    | exact ⟨by norm_num, by norm_num⟩

theorem dget_assembleTess_overall (analysis : List (String × PyVal)) (score : ℚ)
    (cd rd : PyVal) (output now : Str) (st : Ai.TessSteps) :
    PyVal.dget (Ai.assembleTess analysis score cd rd output now st)
      "overall_score" = some (PyVal.vNum score) := rfl

theorem dget_assembleTess_recommendation (analysis : List (String × PyVal))
    (score : ℚ) (cd rd : PyVal) (output now : Str) (st : Ai.TessSteps) :
    PyVal.dget (Ai.assembleTess analysis score cd rd output now st)
      "recommendation" = some (PyVal.vStr (Ai.getRecommendation score)) := rfl

theorem tessExtractScore_fallback_mem (output : Str) :
    0 ≤ Ai.tessExtractScore (Ai.fallback_parse output) ∧
    Ai.tessExtractScore (Ai.fallback_parse output) ≤ 10 := by
  have h1 : PyVal.agetN (Ai.fallback_parse output) "score" =
      PyVal.vNum (Ai.extract_score output) := rfl
  have h2 : PyVal.agetN (Ai.fallback_parse output) "pontuacao" = PyVal.vNone := rfl
  have h3 : PyVal.agetD (Ai.fallback_parse output) "nota" (PyVal.vNum (13/2)) =
      PyVal.vNum (13/2) := rfl
  unfold Ai.tessExtractScore Ai.pyOr
  rw [h1, h2, h3]
  by_cases hq : Ai.extract_score output = 0
  · simp only [PyVal.truthy, hq, decide_eq_true_eq, Ai.pyFloat]
    norm_num [PyVal.truthy, Ai.pyFloat]
  · simp only [PyVal.truthy, decide_eq_true_eq, Ai.pyFloat]
    rw [if_pos (by simpa using hq)]
    simpa [Ai.pyFloat] using extract_score_mem output

/-- C4 (amended): the overall score of a structured Tess result is the
raw `_extract_score` of the parsed analysis.  For the free-text fallback
path the score is clamped to `[0, 10]` with `6.5` as default; on the
JSON path a truthy numeric `score` is used unclamped (so values outside
`[0, 10]` pass through, see the counterexample), and `6.5` is the
default when no `score`/`pontuacao`/`nota` field is present. -/
theorem C4_score_normalization (output : Str) (cd rd : PyVal) (now : Str) :
    (∀ r, Ai.structure_response none output cd rd now = Except.ok r →
      ∃ q, PyVal.dget r "overall_score" = some (PyVal.vNum q) ∧
        0 ≤ q ∧ q ≤ 10) ∧
    (∀ analysis r,
      Ai.structure_response (some analysis) output cd rd now = Except.ok r →
      PyVal.dget r "overall_score" =
        some (PyVal.vNum (Ai.tessExtractScore analysis))) ∧
    (∀ analysis q, PyVal.aget analysis "score" = some (PyVal.vNum q) → q ≠ 0 →
      Ai.tessExtractScore analysis = q) ∧
    (∀ analysis, PyVal.aget analysis "score" = none →
      PyVal.aget analysis "pontuacao" = none →
      PyVal.aget analysis "nota" = none →
      Ai.tessExtractScore analysis = 13/2) ∧
    (∀ text, 0 ≤ Ai.extract_score text ∧ Ai.extract_score text ≤ 10) := by
  refine ⟨?_, ?_, ?_, ?_, extract_score_mem⟩
  · intro r h
    obtain ⟨st, rfl⟩ := structure_response_ok h
    exact ⟨_, dget_assembleTess_overall _ _ _ _ _ _ _,
      (tessExtractScore_fallback_mem output).1,
      (tessExtractScore_fallback_mem output).2⟩
  · intro analysis r h
    obtain ⟨st, rfl⟩ := structure_response_ok h
    exact dget_assembleTess_overall _ _ _ _ _ _ _
  · intro analysis q hsc hq
    unfold Ai.tessExtractScore Ai.pyOr
    rw [PyVal.agetN, PyVal.agetD, hsc]
    simp only [Option.getD_some]
    rw [if_pos (by simp [PyVal.truthy, hq])]
    simp [Ai.pyFloat]
  · intro analysis h1 h2 h3
    unfold Ai.tessExtractScore Ai.pyOr
    rw [PyVal.agetN, PyVal.agetD, h1, PyVal.agetN, PyVal.agetD, h2,
      PyVal.agetD, h3]
    simp [PyVal.truthy, Ai.pyFloat]

/-- C4 is refuted as stated: a JSON response whose `score` is the number
15 yields a final structured Tess result with `overall_score = 15`,
outside `[0, 10]` (the JSON path does not clamp). -/
theorem C4_counterexample :
    ∃ r, Ai.structure_response (some [("score", PyVal.vNum 15)]) []
        (PyVal.vDict []) (PyVal.vDict []) [] = Except.ok r ∧
      PyVal.dget r "overall_score" = some (PyVal.vNum 15) ∧
      ¬ ((15 : ℚ) ≤ 10) :=
  ⟨_, rfl, rfl, by norm_num⟩

/-- Witness for C4: the fallback path on a free text with an explicit
score, the JSON path, and the two `_extract_score` defaults. -/
theorem C4_score_normalization_witness :
    (∃ r, Ai.structure_response none (strToCodes "score: 4.5 pontos")
        (PyVal.vDict []) (PyVal.vDict []) [] = Except.ok r ∧
      ∃ q, PyVal.dget r "overall_score" = some (PyVal.vNum q) ∧
        0 ≤ q ∧ q ≤ 10) ∧
    Ai.tessExtractScore [("score", PyVal.vNum 15)] = 15 ∧
    Ai.tessExtractScore [("resumo", PyVal.vStr [])] = 13/2 :=
  ⟨⟨_, rfl, (C4_score_normalization (strToCodes "score: 4.5 pontos")
      (PyVal.vDict []) (PyVal.vDict []) []).1 _ rfl⟩,
   (C4_score_normalization [] (PyVal.vDict []) (PyVal.vDict []) []).2.2.1
      [("score", PyVal.vNum 15)] 15 rfl (by norm_num),
   (C4_score_normalization [] (PyVal.vDict []) (PyVal.vDict []) []).2.2.2.1
      [("resumo", PyVal.vStr [])] rfl rfl rfl⟩

theorem getRecommendation_iff (sc : ℚ) :
    (Ai.getRecommendation sc = strToCodes "Altamente Recomendado" ↔ 8 ≤ sc) ∧
    (Ai.getRecommendation sc = strToCodes "Recomendado" ↔ 13/2 ≤ sc ∧ sc < 8) ∧
    (Ai.getRecommendation sc = strToCodes "Análise Manual Recomendada" ↔
      5 ≤ sc ∧ sc < 13/2) ∧
    (Ai.getRecommendation sc = strToCodes "Não Recomendado" ↔ sc < 5) := by
  unfold Ai.getRecommendation
  split_ifs with h1 h2 h3
  · refine ⟨⟨fun _ => h1, fun _ => rfl⟩,
      ⟨fun hh => absurd hh (by decide), fun hh => absurd hh.2 (not_lt.mpr h1)⟩,
      ⟨fun hh => absurd hh (by decide), fun hh => absurd hh.2 (by linarith)⟩,
      ⟨fun hh => absurd hh (by decide), fun hh => absurd hh (by push_neg; linarith)⟩⟩
  · push_neg at h1
    refine ⟨⟨fun hh => absurd hh (by decide), fun hh => absurd hh (not_le.mpr h1)⟩,
      ⟨fun _ => ⟨h2, h1⟩, fun _ => rfl⟩,
      ⟨fun hh => absurd hh (by decide), fun hh => absurd hh.2 (not_lt.mpr h2)⟩,
      ⟨fun hh => absurd hh (by decide), fun hh => absurd hh (by push_neg; linarith)⟩⟩
  · push_neg at h1 h2
    refine ⟨⟨fun hh => absurd hh (by decide), fun hh => absurd hh (not_le.mpr h1)⟩,
      ⟨fun hh => absurd hh (by decide), fun hh => absurd hh.1 (not_le.mpr h2)⟩,
      ⟨fun _ => ⟨h3, h2⟩, fun _ => rfl⟩,
      ⟨fun hh => absurd hh (by decide), fun hh => absurd hh (not_lt.mpr h3)⟩⟩
  · push_neg at h1 h2 h3
    refine ⟨⟨fun hh => absurd hh (by decide), fun hh => absurd hh (not_le.mpr (by linarith))⟩,
      ⟨fun hh => absurd hh (by decide), fun hh => absurd hh.1 (not_le.mpr (by linarith))⟩,
      ⟨fun hh => absurd hh (by decide), fun hh => absurd hh.1 (not_le.mpr h3)⟩,
      ⟨fun _ => h3, fun _ => rfl⟩⟩

/-- C5: in every structured Tess result the recommendation is the total
threshold function of the overall score: `Altamente Recomendado` iff
`score ≥ 8.0`, `Recomendado` iff `6.5 ≤ score < 8.0`,
`Análise Manual Recomendada` iff `5.0 ≤ score < 6.5`, and
`Não Recomendado` iff `score < 5.0`. -/
theorem C5_recommendation_thresholds (jsonRes : Option (List (String × PyVal)))
    (output : Str) (cd rd : PyVal) (now : Str) (r : PyVal)
    (h : Ai.structure_response jsonRes output cd rd now = Except.ok r) :
    ∃ sc recs, PyVal.dget r "overall_score" = some (PyVal.vNum sc) ∧
      PyVal.dget r "recommendation" = some (PyVal.vStr recs) ∧
      (recs = strToCodes "Altamente Recomendado" ↔ 8 ≤ sc) ∧
      (recs = strToCodes "Recomendado" ↔ 13/2 ≤ sc ∧ sc < 8) ∧
      (recs = strToCodes "Análise Manual Recomendada" ↔ 5 ≤ sc ∧ sc < 13/2) ∧
      (recs = strToCodes "Não Recomendado" ↔ sc < 5) := by
  obtain ⟨st, rfl⟩ := structure_response_ok h
  exact ⟨_, _, dget_assembleTess_overall _ _ _ _ _ _ _,
    dget_assembleTess_recommendation _ _ _ _ _ _ _,
    (getRecommendation_iff _).1, (getRecommendation_iff _).2.1,
    (getRecommendation_iff _).2.2.1, (getRecommendation_iff _).2.2.2⟩

/-- Witness for C5 at a concrete parsed response with score 9. -/
theorem C5_recommendation_thresholds_witness :
    ∃ r, Ai.structure_response (some [("score", PyVal.vNum 9)]) []
        (PyVal.vDict []) (PyVal.vDict []) [] = Except.ok r ∧
      ∃ sc recs, PyVal.dget r "overall_score" = some (PyVal.vNum sc) ∧
        PyVal.dget r "recommendation" = some (PyVal.vStr recs) ∧
        (recs = strToCodes "Altamente Recomendado" ↔ 8 ≤ sc) ∧
        (recs = strToCodes "Recomendado" ↔ 13/2 ≤ sc ∧ sc < 8) ∧
        (recs = strToCodes "Análise Manual Recomendada" ↔ 5 ≤ sc ∧ sc < 13/2) ∧
        (recs = strToCodes "Não Recomendado" ↔ sc < 5) :=
  ⟨_, rfl, C5_recommendation_thresholds (some [("score", PyVal.vNum 9)]) []
    (PyVal.vDict []) (PyVal.vDict []) [] _ rfl⟩

theorem scores_overall_mem (tm : Enh.TechMatch) (e : Enh.ExpData)
    (p : Enh.ProjData) (l : Enh.LeadData) (ed : Enh.EduData)
    (sen : Enh.SenInfo) (len : Nat) :
    2 ≤ (Enh.calculate_scores_calibrated tm e p l ed sen len).overall ∧
    (Enh.calculate_scores_calibrated tm e p l ed sen len).overall ≤ 10 := by
  simp only [Enh.calculate_scores_calibrated]
  apply PyQ.round1_mem 2 10
  · norm_num
  · norm_num
  · exact le_max_left 2 _
  · exact max_le (by norm_num) (min_le_left _ _)

theorem dget_enhanced_overall (cv jd nm : Str) (cy : Nat) (now : Str) :
    PyVal.dget (Enh.analyze cv jd nm cy now) "overall_score" =
      some (PyVal.vNum (Enh.calculate_scores_calibrated
        (Enh.calculate_tech_match (Enh.extract_all_technologies (Py.lower cv))
          (Enh.extract_all_technologies (Py.lower jd)))
        (Enh.analyze_experience cv cy)
        (Enh.analyze_projects cv)
        (Enh.analyze_leadership (Py.lower cv))
        (Enh.analyze_education (Py.lower cv))
        (Enh.detect_seniority (Py.lower cv) (Enh.analyze_experience cv cy).years)
        cv.length).overall) := rfl

/-- C10: for every CV text, job description and candidate name, the
`overall_score` of `EnhancedCVAnalyzer.analyze` lies between 2.0 and
10.0 inclusive — the calibrated score is clamped to that range (and then
rounded to one decimal, which preserves it). -/
theorem C10_overall_range (cv jd nm : Str) (cy : Nat) (now : Str) :
    ∃ q, PyVal.dget (Enh.analyze cv jd nm cy now) "overall_score" =
        some (PyVal.vNum q) ∧ 2 ≤ q ∧ q ≤ 10 :=
  ⟨_, dget_enhanced_overall cv jd nm cy now,
    (scores_overall_mem _ _ _ _ _ _ _).1,
    (scores_overall_mem _ _ _ _ _ _ _).2⟩

theorem Py.lowerChar_upperChar (c : Nat) :
    Py.lowerChar (Py.upperChar c) = Py.lowerChar c := by
  unfold Py.lowerChar Py.upperChar
  split_ifs with h1 h2 h3 <;>
    simp only [Bool.or_eq_true, Bool.and_eq_true, decide_eq_true_eq] at * <;> omega

theorem Py.lower_titleGo (b : Bool) (s : Str) :
    Py.lower (Py.titleGo b s) = Py.lower s := by
  induction s generalizing b with
  | nil => rfl
  | cons c r ih =>
    have ih' : ∀ b, List.map Py.lowerChar (Py.titleGo b r) =
        List.map Py.lowerChar r := fun b => ih b
    rw [Py.titleGo]
    split
    · simp only [Py.lower, List.map_cons, ih']
      congr 1
      split
      · exact Py.lowerChar_idem c
      · exact Py.lowerChar_upperChar c
    · simp only [Py.lower, List.map_cons, ih']

theorem Py.lower_title (s : Str) : Py.lower (Py.title s) = Py.lower s :=
  Py.lower_titleGo false s

theorem mem_dedupFirst_aux (l : List Str) (acc : List Str) (y : Str) :
    y ∈ l.foldl (fun acc x => if x ∈ acc then acc else acc ++ [x]) acc ↔
      y ∈ acc ∨ y ∈ l := by
  induction l generalizing acc with
  | nil => simp
  | cons x r ih =>
    rw [List.foldl_cons, ih]
    by_cases hx : x ∈ acc
    · rw [if_pos hx]
      simp only [List.mem_cons]
      constructor
      · tauto
      · rintro (hy | rfl | hy) <;> tauto
    · rw [if_neg hx]
      simp only [List.mem_append, List.mem_singleton, List.mem_cons]
      tauto

theorem mem_dedupFirst (l : List Str) (y : Str) :
    y ∈ Enh.dedupFirst l ↔ y ∈ l := by
  rw [Enh.dedupFirst, mem_dedupFirst_aux]
  simp

theorem nodup_dedupFirst_aux (l : List Str) (acc : List Str) (h : acc.Nodup) :
    (l.foldl (fun acc x => if x ∈ acc then acc else acc ++ [x]) acc).Nodup := by
  induction l generalizing acc with
  | nil => exact h
  | cons x r ih =>
    rw [List.foldl_cons]
    apply ih
    split
    · exact h
    · rename_i hx
      simpa [List.nodup_append, h] using hx

theorem nodup_dedupFirst (l : List Str) : (Enh.dedupFirst l).Nodup :=
  nodup_dedupFirst_aux l [] List.nodup_nil

theorem mem_dedup_lower_fixed (l : List Str) (a : Str)
    (h : a ∈ Enh.dedupFirst (l.map Py.lower)) : Py.lower a = a := by
  rw [mem_dedupFirst] at h
  obtain ⟨b, _, rfl⟩ := List.mem_map.mp h
  exact Py.lower_idem b

/-- C9: for every CV skill set and nonempty job skill set, the `matched`
and `missing` lists of `_calculate_tech_match` are disjoint; compared
case-insensitively their union is exactly the job's skill set, `matched`
being the job skills present in the CV and `missing` those absent; and
the returned percentage lies in `[0, 100]`. -/
theorem C9_tech_match (cv_tech job_tech : Enh.TechInfo)
    (hj : job_tech.all_skills ≠ []) :
    (∀ s, s ∈ (Enh.calculate_tech_match cv_tech job_tech).matched →
      s ∉ (Enh.calculate_tech_match cv_tech job_tech).missing) ∧
    (∀ t, (∃ x ∈ (Enh.calculate_tech_match cv_tech job_tech).matched ++
        (Enh.calculate_tech_match cv_tech job_tech).missing, Py.lower x = t) ↔
      (∃ s ∈ job_tech.all_skills, Py.lower s = t)) ∧
    (∀ s, s ∈ job_tech.all_skills →
      ((∃ c ∈ cv_tech.all_skills, Py.lower c = Py.lower s) ↔
       (∃ x ∈ (Enh.calculate_tech_match cv_tech job_tech).matched,
         Py.lower x = Py.lower s))) ∧
    0 ≤ (Enh.calculate_tech_match cv_tech job_tech).percentage ∧
    (Enh.calculate_tech_match cv_tech job_tech).percentage ≤ 100 := by
  set cvs := Enh.dedupFirst (cv_tech.all_skills.map Py.lower) with hcvs
  set jbs := Enh.dedupFirst (job_tech.all_skills.map Py.lower) with hjbs
  have hjne : jbs.isEmpty = false := by
    rw [List.isEmpty_eq_false_iff_exists_mem]
    obtain ⟨s, hs⟩ := List.exists_mem_of_ne_nil _ hj
    exact ⟨Py.lower s, (mem_dedupFirst _ _).mpr (List.mem_map_of_mem _ hs)⟩
  have hr : Enh.calculate_tech_match cv_tech job_tech =
      { matched := (cvs.filter (· ∈ jbs)).map Py.title,
        missing := (jbs.filter (· ∉ cvs)).map Py.title,
        percentage := PyQ.round1 (if (cvs.filter (· ∈ jbs)).length = 0 then
          ((0 : ℚ), (2 : ℚ)) else
          (((cvs.filter (· ∈ jbs)).length : ℚ) / (jbs.length : ℚ) * 100,
           min 10 ((((cvs.filter (· ∈ jbs)).length : ℚ) / (jbs.length : ℚ) * 100) / 10 +
             min (3/2) (((cvs.filter (· ∉ jbs)).length : ℚ) * (3/20))))).1,
        score := PyQ.round1 (if (cvs.filter (· ∈ jbs)).length = 0 then
          ((0 : ℚ), (2 : ℚ)) else
          (((cvs.filter (· ∈ jbs)).length : ℚ) / (jbs.length : ℚ) * 100,
           min 10 ((((cvs.filter (· ∈ jbs)).length : ℚ) / (jbs.length : ℚ) * 100) / 10 +
             min (3/2) (((cvs.filter (· ∉ jbs)).length : ℚ) * (3/20))))).2 } := by
    rw [Enh.calculate_tech_match]
    rw [if_neg (by rw [← hjbs, hjne]; simp)]
  -- membership in lowered dedup lists: characters are lower-fixed
  have hmemcv : ∀ a, a ∈ cvs → Py.lower a = a ∧ ∃ c ∈ cv_tech.all_skills, Py.lower c = a := by
    intro a ha
    refine ⟨mem_dedup_lower_fixed _ _ ha, ?_⟩
    rw [hcvs, mem_dedupFirst] at ha
    obtain ⟨c, hc, rfl⟩ := List.mem_map.mp ha
    exact ⟨c, hc, rfl⟩
  have hmemjb : ∀ a, a ∈ jbs → Py.lower a = a ∧ ∃ c ∈ job_tech.all_skills, Py.lower c = a := by
    intro a ha
    refine ⟨mem_dedup_lower_fixed _ _ ha, ?_⟩
    rw [hjbs, mem_dedupFirst] at ha
    obtain ⟨c, hc, rfl⟩ := List.mem_map.mp ha
    exact ⟨c, hc, rfl⟩
  have hjbmem : ∀ c, c ∈ job_tech.all_skills → Py.lower c ∈ jbs := by
    intro c hc
    rw [hjbs, mem_dedupFirst]
    exact List.mem_map_of_mem _ hc
  have hcvmem : ∀ c, c ∈ cv_tech.all_skills → Py.lower c ∈ cvs := by
    intro c hc
    rw [hcvs, mem_dedupFirst]
    exact List.mem_map_of_mem _ hc
  refine ⟨?_, ?_, ?_, ?_⟩
  · -- disjointness
    intro s hs hs'
    rw [hr] at hs hs'
    simp only [List.mem_map, List.mem_filter] at hs hs'
    obtain ⟨a, ⟨hacv, hajb⟩, rfl⟩ := hs
    obtain ⟨b, ⟨hbjb, hbcv⟩, htb⟩ := hs'
    have ha := (hmemcv a hacv).1
    have hb := (hmemjb b hbjb).1
    have : a = b := by
      have h1 : Py.lower (Py.title a) = a := (Py.lower_title a).trans ha
      have h2 : Py.lower (Py.title b) = b := (Py.lower_title b).trans hb
      rw [← h1, ← h2, htb]
    rw [this] at hacv
    simp only [decide_eq_true_eq] at hbcv
    exact absurd hacv (by simpa using hbcv)
  · -- case-insensitive union equals the job's skill set
    intro t
    rw [hr]
    simp only [List.mem_append, List.mem_map, List.mem_filter]
    constructor
    · rintro ⟨x, (⟨a, ⟨hacv, hajb⟩, rfl⟩ | ⟨a, ⟨hajb, hacv⟩, rfl⟩), rfl⟩
      · have ha := (hmemjb a (by simpa using hajb)).1
        obtain ⟨c, hc, hlc⟩ := (hmemjb a (by simpa using hajb)).2
        exact ⟨c, hc, by rw [Py.lower_title, ha, hlc]⟩
      · have ha := (hmemjb a hajb).1
        obtain ⟨c, hc, hlc⟩ := (hmemjb a hajb).2
        exact ⟨c, hc, by rw [Py.lower_title, ha, hlc]⟩
    · rintro ⟨s, hs, rfl⟩
      by_cases hcv : Py.lower s ∈ cvs
      · refine ⟨Py.title (Py.lower s), Or.inl ⟨Py.lower s, ⟨hcv, by simpa using hjbmem s hs⟩, rfl⟩, ?_⟩
        rw [Py.lower_title, Py.lower_idem]
      · refine ⟨Py.title (Py.lower s), Or.inr ⟨Py.lower s, ⟨hjbmem s hs, by simpa using hcv⟩, rfl⟩, ?_⟩
        rw [Py.lower_title, Py.lower_idem]
  · -- matched characterizes presence in the CV
    intro s hs
    rw [hr]
    simp only [List.mem_map, List.mem_filter]
    constructor
    · rintro ⟨c, hc, hlc⟩
      refine ⟨Py.title (Py.lower s), ⟨Py.lower s, ⟨?_, by simpa using hjbmem s hs⟩, rfl⟩, ?_⟩
      · rw [← hlc]; exact hcvmem c hc
      · rw [Py.lower_title, Py.lower_idem]
    · rintro ⟨x, ⟨a, ⟨hacv, hajb⟩, rfl⟩, hlx⟩
      have ha := (hmemcv a hacv).1
      obtain ⟨c, hc, hlc⟩ := (hmemcv a hacv).2
      refine ⟨c, hc, ?_⟩
      rw [hlc, ← hlx, Py.lower_title, ha]
  · -- percentage in [0, 100]
    rw [hr]
    simp only
    split
    · have := PyQ.round1_mem 0 100 0 (by norm_num) (by norm_num) (by norm_num) (by norm_num)
      simpa using this
    · rename_i hne
      have hnodm : (cvs.filter (· ∈ jbs)).Nodup := (nodup_dedupFirst _).filter _
      have hnodj : jbs.Nodup := nodup_dedupFirst _
      have hsub : (cvs.filter (· ∈ jbs)).toFinset ⊆ jbs.toFinset := by
        intro x hx
        rw [List.mem_toFinset] at hx ⊢
        have := List.mem_filter.mp hx
        simpa using this.2
      have hlen : (cvs.filter (· ∈ jbs)).length ≤ jbs.length := by
        rw [← List.toFinset_card_of_nodup hnodm, ← List.toFinset_card_of_nodup hnodj]
        exact Finset.card_le_card hsub
      have hjpos : 0 < (jbs.length : ℚ) := by
        have : jbs ≠ [] := by
          intro he
          rw [he] at hjne
          simp [List.isEmpty] at hjne
        have := List.length_pos.mpr this
        exact_mod_cast this
      have hp0 : 0 ≤ ((cvs.filter (· ∈ jbs)).length : ℚ) / (jbs.length : ℚ) * 100 := by
        positivity
      have hp1 : ((cvs.filter (· ∈ jbs)).length : ℚ) / (jbs.length : ℚ) * 100 ≤ 100 := by
        have hq : ((cvs.filter (· ∈ jbs)).length : ℚ) ≤ (jbs.length : ℚ) := by
          exact_mod_cast hlen
        rw [div_mul_eq_mul_div, div_le_iff₀ hjpos]
        nlinarith
      have := PyQ.round1_mem 0 100 _ (by norm_num) (by norm_num) hp0 hp1
      simpa using this

/-- Witness for C9 at concrete skill sets. -/
theorem C9_tech_match_witness :
    (∀ s, s ∈ (Enh.calculate_tech_match
        ⟨[], [strToCodes "Python", strToCodes "Git"]⟩
        ⟨[], [strToCodes "Python", strToCodes "Docker"]⟩).matched →
      s ∉ (Enh.calculate_tech_match
        ⟨[], [strToCodes "Python", strToCodes "Git"]⟩
        ⟨[], [strToCodes "Python", strToCodes "Docker"]⟩).missing) ∧
    0 ≤ (Enh.calculate_tech_match
        ⟨[], [strToCodes "Python", strToCodes "Git"]⟩
        ⟨[], [strToCodes "Python", strToCodes "Docker"]⟩).percentage ∧
    (Enh.calculate_tech_match
        ⟨[], [strToCodes "Python", strToCodes "Git"]⟩
        ⟨[], [strToCodes "Python", strToCodes "Docker"]⟩).percentage ≤ 100 :=
  ⟨(C9_tech_match _ _ (by decide)).1,
   (C9_tech_match _ _ (by decide)).2.2.2.1,
   (C9_tech_match _ _ (by decide)).2.2.2.2⟩

namespace Chatbot

theorem countNl_cons (c : Nat) (l : Str) :
    countNl (c :: l) = (if c = 10 then 1 else 0) + countNl l := by
  unfold countNl
  rw [List.filter_cons]
  by_cases hc : c = 10
  · simp [hc, Nat.add_comm]
  · simp [hc]

theorem hasTriple_cons (c : Nat) (r : Str) :
    hasTriple (c :: r) =
      ((decide (c = 10) && decide (3 ≤ countNl ((c :: r).takeWhile Py.isSpace))) ||
        hasTriple r) := rfl

theorem countNl_eq_zero (l : Str) (h : ∀ x ∈ l, x ≠ 10) : countNl l = 0 := by
  unfold countNl
  rw [List.filter_eq_nil_iff.mpr]
  · rfl
  · intro a ha
    simp [h a ha]

theorem takeWhile_append_of_all (p : Nat → Bool) (a b : Str)
    (h : ∀ x ∈ a, p x = true) :
    (a ++ b).takeWhile p = a ++ b.takeWhile p := by
  induction a with
  | nil => rfl
  | cons c r ih =>
    rw [List.cons_append, List.takeWhile_cons,
      if_pos (h c (List.mem_cons_self _ _)), ih (fun x hx => h x (List.mem_cons_of_mem _ hx))]
    rfl

theorem takeWhile_nil_of_head (p : Nat → Bool) (l : Str)
    (h : l.head?.all (fun c => !p c) = true) : l.takeWhile p = [] := by
  cases l with
  | nil => rfl
  | cons c r =>
    simp only [List.head?_cons, Option.all_some, Bool.not_eq_true'] at h
    rw [List.takeWhile_cons, if_neg (by simp [h])]

theorem countNl_takeWhile_mono (p : Nat → Bool) (x y : Str) :
    countNl (x.takeWhile p) ≤ countNl ((x ++ y).takeWhile p) := by
  induction x with
  | nil => simp [countNl]
  | cons c r ih =>
    rw [List.cons_append, List.takeWhile_cons, List.takeWhile_cons]
    split
    · rw [countNl_cons, countNl_cons]
      omega
    · simp [countNl]

theorem hasTriple_append_left (a b : Str) (h : hasTriple a = true) :
    hasTriple (a ++ b) = true := by
  induction a with
  | nil => simp [hasTriple] at h
  | cons c r ih =>
    rw [hasTriple] at h
    rw [List.cons_append, hasTriple]
    rcases Bool.or_eq_true_iff.mp h with h1 | h1
    · apply Bool.or_eq_true_iff.mpr
      left
      rcases Bool.and_eq_true_iff.mp h1 with ⟨hc, hn⟩
      apply Bool.and_eq_true_iff.mpr
      refine ⟨hc, ?_⟩
      simp only [decide_eq_true_eq] at hn ⊢
      calc (3 : Nat) ≤ countNl ((c :: r).takeWhile Py.isSpace) := hn
        _ ≤ countNl (((c :: r) ++ b).takeWhile Py.isSpace) := countNl_takeWhile_mono _ _ _
    · exact Bool.or_eq_true_iff.mpr (Or.inr (ih h1))

theorem hasTriple_append_right (a s : Str) (h : hasTriple s = true) :
    hasTriple (a ++ s) = true := by
  induction a with
  | nil => exact h
  | cons c r ih =>
    rw [List.cons_append, hasTriple]
    exact Bool.or_eq_true_iff.mpr (Or.inr ih)

theorem hasTriple_of_append_false (a s : Str) (h : hasTriple (a ++ s) = false) :
    hasTriple s = false := by
  by_contra hc
  rw [hasTriple_append_right a s (by simpa using hc)] at h
  exact absurd h (by simp)

/-- The key run lemma: prepending an all-whitespace block with at most
two newlines to a text that starts with a non-whitespace character (and
has no triple run) cannot create a triple run. -/
theorem hasTriple_ws_append (a R : Str) (ha : ∀ x ∈ a, Py.isSpace x = true)
    (hc : countNl a ≤ 2) (hR : R.takeWhile Py.isSpace = [])
    (hT : hasTriple R = false) : hasTriple (a ++ R) = false := by
  induction a with
  | nil => exact hT
  | cons c r ih =>
    rw [List.cons_append, hasTriple]
    apply Bool.or_eq_false_iff.mpr
    constructor
    · apply Bool.and_eq_false_iff.mpr
      by_cases hc10 : c = 10
      · right
        have : ((c :: r) ++ R).takeWhile Py.isSpace = (c :: r) ++ [] := by
          rw [takeWhile_append_of_all _ _ _ ha, hR]
        rw [show (c :: (r ++ R)) = ((c :: r) ++ R) from rfl, this, List.append_nil]
        rw [decide_eq_false_iff_not]
        omega
      · left
        simp [hc10]
    · exact ih (fun x hx => ha x (List.mem_cons_of_mem _ hx))
        (by rw [countNl_cons] at hc; omega)

theorem mem_afterLastNl (run : Str) (x : Nat) (h : x ∈ afterLastNl run) :
    x ∈ run ∧ x ≠ 10 := by
  unfold afterLastNl at h
  rw [List.mem_reverse] at h
  constructor
  · have := (List.takeWhile_prefix (l := run.reverse) (p := fun c => c ≠ 10)).subset h
    exact List.mem_reverse.mp this
  · have := List.mem_takeWhile_imp h
    simpa using this

theorem collapseBlankGo_head (fuel : Nat) (l : Str)
    (h : l.head?.all (fun c => !Py.isSpace c) = true) :
    (collapseBlankGo fuel l).head? = l.head? := by
  cases fuel with
  | zero => rfl
  | succ fuel =>
    cases l with
    | nil => rfl
    | cons c r =>
      simp only [List.head?_cons, Option.all_some, Bool.not_eq_true'] at h
      have hc10 : ¬ (c = 10) := by
        intro he
        rw [he] at h
        simp [Py.isSpace] at h
      rw [collapseBlankGo]
      simp only [hc10, if_false, List.head?_cons]

theorem hasTriple_collapseBlankGo (fuel : Nat) (l : Str) (hf : l.length ≤ fuel) :
    hasTriple (collapseBlankGo fuel l) = false := by
  induction fuel generalizing l with
  | zero =>
    have : l = [] := List.length_eq_zero.mp (Nat.le_zero.mp hf)
    subst this
    rfl
  | succ fuel ih =>
    cases l with
    | nil => rfl
    | cons c r =>
      rw [collapseBlankGo]
      -- facts about the recursive tail
      have hRhead : (r.dropWhile Py.isSpace).head?.all (fun c => !Py.isSpace c) = true :=
        Py.dropWhile_head_all _ _
      have hRlen : (r.dropWhile Py.isSpace).length ≤ fuel := by
        have := Py.length_dropWhile_le Py.isSpace r
        simp only [List.length_cons] at hf
        omega
      have hT : hasTriple (collapseBlankGo fuel (r.dropWhile Py.isSpace)) = false :=
        ih _ hRlen
      have hRtake : (collapseBlankGo fuel (r.dropWhile Py.isSpace)).takeWhile
          Py.isSpace = [] := by
        apply takeWhile_nil_of_head
        rw [collapseBlankGo_head _ _ hRhead]
        exact hRhead
      by_cases hc10 : c = 10
      · rw [if_pos hc10]
        split
        · -- collapse: 10 :: 10 :: ts ++ R'
          rw [List.cons_append, List.cons_append, hasTriple_cons]
          apply Bool.or_eq_false_iff.mpr
          constructor
          · apply Bool.and_eq_false_iff.mpr
            right
            have hts : ∀ x ∈ afterLastNl (10 :: r.takeWhile Py.isSpace),
                Py.isSpace x = true ∧ x ≠ 10 := by
              intro x hx
              obtain ⟨hmem, hne⟩ := mem_afterLastNl _ _ hx
              refine ⟨?_, hne⟩
              rcases List.mem_cons.mp hmem with rfl | hmem
              · rfl
              · exact List.mem_takeWhile_imp hmem
            have h1 : (10 :: (afterLastNl (10 :: r.takeWhile Py.isSpace) ++
                collapseBlankGo fuel (r.dropWhile Py.isSpace))).takeWhile Py.isSpace =
                10 :: (afterLastNl (10 :: r.takeWhile Py.isSpace) ++ []) := by
              rw [List.takeWhile_cons, if_pos (by decide)]
              congr 1
              rw [takeWhile_append_of_all _ _ _ (fun x hx => (hts x hx).1), hRtake]
            rw [decide_eq_false_iff_not, List.takeWhile_cons, if_pos (by decide), h1]
            rw [countNl_cons, countNl_cons, List.append_nil,
              countNl_eq_zero _ (fun x hx => (hts x hx).2)]
            norm_num
          · rw [hasTriple_cons]
            apply Bool.or_eq_false_iff.mpr
            constructor
            · apply Bool.and_eq_false_iff.mpr
              right
              have hts : ∀ x ∈ afterLastNl (10 :: r.takeWhile Py.isSpace),
                  Py.isSpace x = true ∧ x ≠ 10 := by
                intro x hx
                obtain ⟨hmem, hne⟩ := mem_afterLastNl _ _ hx
                refine ⟨?_, hne⟩
                rcases List.mem_cons.mp hmem with rfl | hmem
                · rfl
                · exact List.mem_takeWhile_imp hmem
              rw [decide_eq_false_iff_not, List.takeWhile_cons, if_pos (by decide),
                takeWhile_append_of_all _ _ _ (fun x hx => (hts x hx).1), hRtake]
              rw [countNl_cons, List.append_nil,
                countNl_eq_zero _ (fun x hx => (hts x hx).2)]
              norm_num
            · apply hasTriple_ws_append _ _ ?_ ?_ hRtake hT
              · intro x hx
                exact (by
                  obtain ⟨hmem, _⟩ := mem_afterLastNl _ _ hx
                  rcases List.mem_cons.mp hmem with rfl | hmem
                  · rfl
                  · exact List.mem_takeWhile_imp hmem)
              · rw [countNl_eq_zero _ (fun x hx => (mem_afterLastNl _ _ hx).2)]
                omega
        · -- short run: run ++ R'
          apply hasTriple_ws_append _ _ ?_ ?_ hRtake hT
          · intro x hx
            rcases List.mem_cons.mp hx with rfl | hx
            · rfl
            · exact List.mem_takeWhile_imp hx
          · rename_i hlt
            omega
      · rw [if_neg hc10]
        rw [hasTriple_cons]
        apply Bool.or_eq_false_iff.mpr
        refine ⟨by simp [hc10], ?_⟩
        have hrlen : r.length ≤ fuel := by
          simp only [List.length_cons] at hf
          omega
        exact ih r hrlen

theorem hasTriple_strip (l : Str) (h : hasTriple l = false) :
    hasTriple (Py.strip l) = false := by
  by_contra hc
  rw [Bool.not_eq_false] at hc
  unfold Py.strip at hc
  set t := l.dropWhile Py.isSpace with ht
  set u := t.reverse.dropWhile Py.isSpace with hu
  have hdecomp : t = u.reverse ++ (t.reverse.takeWhile Py.isSpace).reverse := by
    conv_lhs => rw [← List.reverse_reverse t]
    conv_lhs => rw [← List.takeWhile_append_dropWhile (p := Py.isSpace) (l := t.reverse)]
    rw [List.reverse_append, ← hu]
  have h1 : hasTriple t = true := by
    rw [hdecomp]
    exact hasTriple_append_left _ _ hc
  have h2 : hasTriple l = true := by
    conv_lhs => rw [← List.takeWhile_append_dropWhile (p := Py.isSpace) (l := l), ← ht]
    exact hasTriple_append_right _ _ h1
  rw [h2] at h
  exact absurd h (by simp)

theorem hasTriple_clean_propaganda (text : Str) :
    hasTriple (clean_propaganda text) = false := by
  unfold clean_propaganda
  apply hasTriple_strip
  unfold collapseBlank
  exact hasTriple_collapseBlankGo _ _ (le_refl _)

end Chatbot

/-- C7 (counterexample): the success-path cleanup does not remove all
hashtag tokens.  Each boilerplate substitution is a single left-to-right
pass (`re.sub`), so deleting a match can splice its neighbours into a new
match: for the extracted output `"##a b"`, `_clean_propaganda` deletes the
inner `#a ` and returns `"#b"`, which still matches `#\w+`. -/
theorem C7_counterexample :
    Chatbot.call_tess (Chatbot.CallOutcome.http 200 (strToCodes "##a b")) =
      strToCodes "#b" ∧
    Chatbot.hasHashtag (strToCodes "#b") = true :=
  ⟨by decide, by decide⟩

/-- C7 (amended): on the success path (HTTP 200, nonempty extracted
output) `call_tess` returns exactly `_clean_propaganda` of the output,
and that result has no leading or trailing whitespace and contains no
match of `\n\s*\n\s*\n+` (no run of three or more consecutive blank
lines); the "no remaining boilerplate match" part of the original claim
is false (see the counterexample). -/
theorem C7_boilerplate_cleanup (out : Str) (h : out ≠ []) :
    Chatbot.call_tess (Chatbot.CallOutcome.http 200 out) =
      Chatbot.clean_propaganda out ∧
    Py.Stripped (Chatbot.clean_propaganda out) ∧
    Chatbot.hasTriple (Chatbot.clean_propaganda out) = false := by
  refine ⟨?_, ?_, Chatbot.hasTriple_clean_propaganda out⟩
  · simp only [Chatbot.call_tess, ne_eq, not_true_eq_false, if_false, if_neg h]
  · show Py.Stripped (Py.strip _)
    exact Py.strip_stripped _

theorem C7_boilerplate_cleanup_witness :
    Chatbot.call_tess (Chatbot.CallOutcome.http 200 (strToCodes "Ok.")) =
      Chatbot.clean_propaganda (strToCodes "Ok.") ∧
    Py.Stripped (Chatbot.clean_propaganda (strToCodes "Ok.")) ∧
    Chatbot.hasTriple (Chatbot.clean_propaganda (strToCodes "Ok.")) = false :=
  C7_boilerplate_cleanup (strToCodes "Ok.") (by decide)
